import Mathlib

/-!
Verification of the webircgateway per-client session engine.

The Go sources are embedded shallowly: each Go function that a claim
depends on is translated into a Lean definition of the same name (maps
become functions `String → Option _`, goroutine channels become lists of
events, external collaborators such as the CAPTCHA verifier, the charset
tables, the message-tag store and the JWT signer become oracle
parameters).  The IRC line codec itself is not part of the source tree,
so messages are modelled in parsed form following the spec (§4.A).
-/

namespace Webirc


/-- ASCII `strings.ToLower` (Unicode beyond ASCII is not folded; all the
strings the session engine folds are ASCII). -/
def asciiLower (s : String) : String :=
  String.mk (s.data.map Char.toLower)

/-- ASCII `strings.ToUpper`. -/
def asciiUpper (s : String) : String :=
  String.mk (s.data.map Char.toUpper)

def listStartsWith : List Char → List Char → Bool
  | _, [] => true
  | [], _ :: _ => false
  | c :: rest, p :: ps => if c = p then listStartsWith rest ps else false

/-- Go `strings.HasPrefix`. -/
def strStartsWith (s pre : String) : Bool :=
  listStartsWith s.data pre.data

def listContainsSub (n : List Char) : List Char → Bool
  | [] => n.isEmpty
  | c :: rest => if listStartsWith (c :: rest) n then true else listContainsSub n rest

/-- Go `strings.Contains`. -/
def strContains (s sub : String) : Bool :=
  listContainsSub sub.data s.data

def splitCh (sep : Char) : List Char → List (List Char)
  | [] => [[]]
  | c :: rest =>
    match splitCh sep rest with
    | [] => [[]]
    | cur :: done => if c = sep then [] :: cur :: done else (c :: cur) :: done

/-- Go `strings.Split` for a single-character separator (the only
separators the session engine splits on are "=" and " "). -/
def strSplitCh (sep : Char) (s : String) : List String :=
  (splitCh sep s.data).map String.mk

/-- Go `strings.EqualFold`, restricted to ASCII case folding. -/
def eqFold (a b : String) : Bool :=
  asciiLower a == asciiLower b

/-- Go `containsOneOf` from utils.go: true when any of `substrs` occurs in `s`. -/
def containsOneOf (s : String) (substrs : List String) : Bool :=
  substrs.any (fun sub => strContains s sub)

/-- Message prefix `nick!user@host` (codec modelled from the spec, §4.A). -/
structure Pfx where
  nick : String := ""
  user : String := ""
  host : String := ""
deriving Repr, DecidableEq

/-- Modelled from the spec: a parsed IRC message (§4.A); the codec source
is not in the tree, so messages are taken in parsed form with command,
parameters, prefix and tags. -/
structure Msg where
  command : String := ""
  params : List String := []
  pfx : Pfx := {}
  tags : List (String × String) := []
deriving Repr, DecidableEq

/-- Modelled from the spec: `Message.GetParam(idx, def)` returns the idx-th
parameter or the default when out of range. -/
def Msg.getParam (m : Msg) (idx : Nat) (dflt : String) : String :=
  m.params.getD idx dflt

/-- Modelled from the spec: `Message.GetParamU`, the upper-cased variant. -/
def Msg.getParamU (m : Msg) (idx : Nat) (dflt : String) : String :=
  asciiUpper (m.getParam idx dflt)

/-- Tag-map lookup (Go `m.Tags[k]` with its comma-ok form). -/
def tagGet (l : List (String × String)) (k : String) : Option String :=
  (l.find? (fun kv => kv.1 = k)).map (fun kv => kv.2)

/-- Tag-map update `m.Tags[k] = v` (replace the binding if present, else add). -/
def tagSet (l : List (String × String)) (k v : String) : List (String × String) :=
  if (l.find? (fun kv => kv.1 = k)).isSome then
    l.map (fun kv => if kv.1 = k then (k, v) else kv)
  else l ++ [(k, v)]

/-! ### Client lifecycle state (client.go) -/

/-- The five client states of client.go. -/
inductive ClientState where
  | idle
  | connecting
  | registering
  | connected
  | ending
deriving Repr, DecidableEq

/-! ### C1: the shutdown latch (client.go `StartShutdown` / `SendClientSignal`)

Both methods run under `shuttingDownLock`, so their executions serialize;
the model is the sequential state machine over the fields they touch.
`closeCount` counts executions of `close(c.Signals)`, `queued` the signals
placed on the channel, and `sentOnClosed` records whether a send was ever
attempted while the channel was closed. -/

structure SigSt where
  shuttingDown : Bool := false
  connState : ClientState := ClientState.idle
  signalsClosed : Bool := false
  closeCount : Nat := 0
  queued : List (String × String × String) := []
  sentOnClosed : Bool := false
deriving Repr, DecidableEq

/-- client.go 195-219: under the lock, if the latch is unset: set it, move
the state to ending, close the Signals channel (exactly this once). -/
def startShutdown (s : SigSt) (_reason : String) : SigSt :=
  if s.shuttingDown then s
  else
    { s with
      shuttingDown := true
      connState := ClientState.ending
      signalsClosed := true
      closeCount := s.closeCount + 1 }

/-- Place one `ClientSignal` ([3]string) on the Signals channel. -/
def sigEnqueue (s : SigSt) (v : String × String × String) : SigSt :=
  { s with
    queued := s.queued ++ [v]
    sentOnClosed := s.sentOnClosed || s.signalsClosed }

/-- client.go 221-235: under the lock, a send is attempted only while the
latch is unset; 0, 1 or 2 extra arguments fill the signal triple. -/
def sendClientSignal (s : SigSt) (signal : String) (args : List String) : SigSt :=
  if s.shuttingDown then s
  else
    match args with
    | [] => sigEnqueue s (signal, "", "")
    | [a] => sigEnqueue s (signal, a, "")
    | [a, b] => sigEnqueue s (signal, a, b)
    | _ => s

/-- One serialized call on the latch-protected interface. -/
inductive SigOp where
  | start (reason : String)
  | send (signal : String) (args : List String)

def sigStep (s : SigSt) : SigOp → SigSt
  | SigOp.start r => startShutdown s r
  | SigOp.send sig args => sendClientSignal s sig args

def sigRun (s : SigSt) (ops : List SigOp) : SigSt :=
  ops.foldl sigStep s

/-- A fresh session's latch state, with an arbitrary current client state. -/
def sigInit (cs : ClientState) : SigSt :=
  { connState := cs }

/-- Latch invariant tying the observable fields together. -/
def SigInv (s : SigSt) : Prop :=
  s.closeCount = (if s.shuttingDown then 1 else 0) ∧
  s.signalsClosed = s.shuttingDown ∧
  s.sentOnClosed = false ∧
  (s.shuttingDown = true → s.connState = ClientState.ending)

/-! ### Rate limiter values (golang.org/x/time/rate, as used by the session) -/

/-- A `rate.Limit`: either `rate.Inf` or a finite lines/second figure. -/
inductive RLimit where
  | inf
  | lim (r : Int)
deriving Repr, DecidableEq

/-- The observable configuration of a `rate.Limiter` (limit and burst). -/
structure Limiter where
  limit : RLimit
  burst : Nat
deriving Repr, DecidableEq

/-! ### pkg/irc channel state (state.go) -/

/-- pkg/irc `StateChannel`; `joined` stands for the `time.Now()` stamp,
drawn from the session clock. -/
structure StChan where
  name : String
  modes : String → Option String
  joined : Nat

/-- pkg/irc `NewStateChannel`. -/
def newStateChannel (name : String) (now : Nat) : StChan :=
  { name := name, modes := fun _ => none, joined := now }

/-- pkg/irc `State.HasChannel`: keys are stored lower-cased. -/
def hasChannel (channels : String → Option StChan) (name : String) : Bool :=
  (channels (asciiLower name)).isSome

/-- pkg/irc `State.GetChannel`. -/
def getChannel (channels : String → Option StChan) (name : String) : Option StChan :=
  channels (asciiLower name)

/-- pkg/irc `State.SetChannel`: store under the lower-cased channel name. -/
def setChannel (channels : String → Option StChan) (ch : StChan) : String → Option StChan :=
  fun k => if k = asciiLower ch.name then some ch else channels k

/-- pkg/irc `State.RemoveChannel`. -/
def removeChannel (channels : String → Option StChan) (name : String) : String → Option StChan :=
  fun k => if k = asciiLower name then none else channels k

/-- pkg/irc `State.ClearChannels`. -/
def clearChannels : String → Option StChan := fun _ => none

/-! ### pkg/irc ISUPPORT token store (isupport.go) -/

/-- isupport.go `addToken`: split the pair on every "=", use the first
piece (upper-cased) as key and the second piece as value ("" if absent). -/
def addToken (tokens : String → Option String) (tokenPair : String) : String → Option String :=
  let kv := strSplitCh '=' tokenPair
  let key := asciiUpper (kv.getD 0 "")
  let val := kv.getD 1 ""
  fun k => if k = key then some val else tokens k

/-- isupport.go `AddTokens`. -/
def addTokens (tokens : String → Option String) (pairs : List String) : String → Option String :=
  pairs.foldl addToken tokens

/-- isupport.go `HasToken`: lookup by upper-cased key. -/
def hasToken (tokens : String → Option String) (key : String) : Bool :=
  (tokens (asciiUpper key)).isSome

/-! ### Configuration snapshots

Modelled from the spec (§6) where noted: the config.go revision carrying
every field referenced by client.go is not in the tree; the fields below
are exactly those the session engine reads. -/

structure Config where
  clientUsername : String := ""
  clientRealname : String := ""
  clientHostname : String := ""
  gatewayName : String := ""
  gatewayMode : Bool := false
  requiresVerification : Bool := false
  sendQuitOnClientClose : String := ""
  secret : String := ""
deriving Repr, DecidableEq

structure ConfigUpstream where
  hostname : String := ""
  port : Int := 0
  tls : Bool := false
  throttle : Int := 0
  webircPassword : String := ""
  serverPassword : String := ""
  gatewayName : String := ""
  networkCommonAddress : String := ""
deriving Repr, DecidableEq

/-! ### The per-session state (client.go `Client` plus its `irc.State`)

Only fields the claims touch are kept; queues and sockets live in the
event traces of the step functions.  `dials` is a ghost counter of
`connectUpstream` invocations (dial initiations). -/

structure Client where
  state : ClientState := ClientState.idle
  nick : String := ""
  username : String := ""
  realname : String := ""
  account : String := ""
  encoding : String := "UTF-8"
  channels : String → Option StChan := fun _ => none
  isReceived : Bool := false
  isInjected : Bool := false
  isTags : List (String × String) := []
  isTokens : String → Option String := fun _ => none
  svPfx : Pfx := {}
  limiter : Limiter := { limit := RLimit.inf, burst := 1 }
  upstreamStarted : Bool := false
  upstreamConnected : Bool := false
  verified : Bool := false
  requiresVerification : Bool := false
  destHost : String := ""
  destPort : Int := 0
  destTLS : Bool := false
  featMsgTags : Bool := false
  featExtJwt : Bool := true
  reqMTCap : String := ""
  seenQuit : Bool := false
  sentPass : Bool := false
  remoteAddr : String := ""
  remoteHostname : String := ""
  tagsList : List (String × String) := []
  dials : Nat := 0
  now : Nat := 0

/-- client.go `NewClient`: idle state, fresh state containers, the
throttled receive channel wrapped around a `rate.NewLimiter(rate.Inf, 1)`,
`Features.ExtJwt` enabled, `RequiresVerification` from the config. -/
def newClient (requiresVerification : Bool) : Client :=
  { requiresVerification := requiresVerification
    featExtJwt := true
    limiter := { limit := RLimit.inf, burst := 1 } }

/-- One externally visible effect of a processing step: a signal offered
to the transport, a store/update on a shared collaborator, or a shutdown
request.  `dataMsg` is `SendClientSignal("data", msg.ToLine())`. -/
inductive Emit where
  | dataRaw (s : String)
  | dataMsg (m : Msg)
  | stateSig (a b : String)
  | failMsg (cmd code text : String)
  | tagmsgFan (m : Msg)
  | storeAdd (m : Msg)
  | shutdownEv (reason : String)
deriving Repr, DecidableEq

/-- Outcome of a line processor for the line itself: forwarded untouched,
forwarded re-serialized after modification, or dropped (a Go panic inside
the processor, recovered in `handleDataLine`). -/
inductive UpFwd where
  | raw
  | msg (m : Msg)
  | dropped
deriving Repr, DecidableEq

inductive PanicOr (α : Type) where
  | panic
  | ok (a : α)

/-! ### ProcessLineFromUpstream (unnamed part_003, lines 22-185)

The Go function is a sequence of guarded blocks mutating the client in
place; each block below is one of those guarded blocks, applied in source
order. -/

/-- part_003 lines 32-34: NICK from our own prefix updates the nick. -/
def upNickBlock (st : Client) (m : Msg) : Client :=
  if 0 < m.params.length ∧ m.command = "NICK" ∧ m.pfx.nick = st.nick then
    { st with nick := m.getParam 0 "" }
  else st

/-- part_003 lines 35-43: 001 fixes the nick, moves to `connected`,
snapshots the server prefix and installs the post-registration limiter
`rate.NewLimiter(rate.Limit(Throttle), 1)`. -/
def up001Block (upCfg : ConfigUpstream) (st : Client) (m : Msg) : Client :=
  if 0 < m.params.length ∧ m.command = "001" then
    { st with
      nick := m.getParam 0 ""
      state := ClientState.connected
      svPfx := m.pfx
      limiter := { limit := RLimit.lim upCfg.throttle, burst := 1 } }
  else st

/-- part_003 lines 44-50: a 005 accumulates `Params[1 : pLen-1]` as
ISUPPORT tokens and marks them received; with exactly one parameter the
slice expression `Params[1:0]` panics before any mutation. -/
def up005Block (st : Client) (m : Msg) : PanicOr Client :=
  if 0 < m.params.length ∧ m.command = "005" then
    if m.params.length = 1 then PanicOr.panic
    else
      PanicOr.ok
        { st with
          isReceived := true
          isTags := m.tags
          isTokens := addTokens st.isTokens ((m.params.drop 1).take (m.params.length - 2)) }
  else PanicOr.ok st

/-- part_003 lines 51-77: on the first non-005 line after ISUPPORT was
received, mark injected and compose the synthetic 005; when the server
already advertises EXTJWT, disable the extJwt feature and (with only two
parameters) send nothing. -/
def upInjectBlock (st : Client) (m : Msg) : Client × List Emit :=
  if st.isReceived = true ∧ st.isInjected = false ∧ m.command ≠ "005" then
    let tagsPart : List (String × String) :=
      match tagGet st.isTags "time" with
      | some v => [("time", v)]
      | none => []
    if hasToken st.isTokens "EXTJWT" then
      ({ st with isInjected := true, featExtJwt := false }, [])
    else
      ({ st with isInjected := true, isTokens := addToken st.isTokens "EXTJWT=1" },
        [Emit.dataMsg
          { command := "005"
            params := [st.nick, "EXTJWT=1", "are supported by this server"]
            pfx := st.svPfx
            tags := tagsPart }])
  else (st, [])

/-- part_003 lines 78-81: self-JOIN records a fresh channel entry. -/
def upJoinBlock (st : Client) (m : Msg) : Client :=
  if 0 < m.params.length ∧ m.command = "JOIN" ∧ m.pfx.nick = st.nick then
    { st with channels := setChannel st.channels (newStateChannel (m.getParam 0 "") st.now) }
  else st

/-- part_003 lines 82-84: self-PART removes the channel entry. -/
def upPartBlock (st : Client) (m : Msg) : Client :=
  if 0 < m.params.length ∧ m.command = "PART" ∧ m.pfx.nick = st.nick then
    { st with channels := removeChannel st.channels (m.getParam 0 "") }
  else st

/-- part_003 lines 85-87: self-QUIT clears the channel map. -/
def upQuitBlock (st : Client) (m : Msg) : Client :=
  if 0 < m.params.length ∧ m.command = "QUIT" ∧ m.pfx.nick = st.nick then
    { st with channels := clearChannels }
  else st

/-- part_003 lines 89-91: 900 records the account name. -/
def up900Block (st : Client) (m : Msg) : Client :=
  if 0 < m.params.length ∧ m.command = "900" then
    { st with account := m.getParam 2 "" }
  else st

/-- part_003 lines 93-95: 901 clears the account name. -/
def up901Block (st : Client) (m : Msg) : Client :=
  if m.command = "901" then { st with account := "" } else st

/-- The mode-character loop of part_003 lines 108-128, acting on the mode
map of the channel object chosen before the loop.  `paramIdx` starts at 1
and is advanced before each read, exactly as in the source. -/
def modeFold (m : Msg) (nick : String) :
    List Char → Nat → Bool → (String → Option String) → (String → Option String)
  | [], _, _, acc => acc
  | c :: rest, paramIdx, adding, acc =>
    if c = '+' then modeFold m nick rest paramIdx true acc
    else if c = '-' then modeFold m nick rest paramIdx false acc
    else
      let p := m.getParam (paramIdx + 1) ""
      if eqFold p nick then
        if adding then
          modeFold m nick rest (paramIdx + 1) adding
            (fun k => if k = String.mk [c] then some "" else acc k)
        else
          modeFold m nick rest (paramIdx + 1) adding
            (fun k => if k = String.mk [c] then none else acc k)
      else modeFold m nick rest (paramIdx + 1) adding acc

/-- Whether the same loop dereferences the nil channel object: it does at
the first non-sign mode character whose parameter case-folds to our nick. -/
def modePanics (m : Msg) (nick : String) : List Char → Nat → Bool
  | [], _ => false
  | c :: rest, paramIdx =>
    if c = '+' ∨ c = '-' then modePanics m nick rest paramIdx
    else if eqFold (m.getParam (paramIdx + 1) "") nick then true
    else modePanics m nick rest (paramIdx + 1)

/-- part_003 lines 97-130: MODE on a channel name.  Note the source tests
`if channel != nil` and then replaces the tracked entry with a brand-new
`NewStateChannel` before running the loop; when the channel is untracked
the loop runs against a nil pointer and panics at the first matching
assignment. -/
def upModeBlock (st : Client) (m : Msg) : PanicOr Client :=
  if 0 < m.params.length ∧ m.command = "MODE" then
    if strStartsWith (m.getParam 0 "") "#" then
      let channelName := m.getParam 0 ""
      let modes := m.getParam 1 ""
      match getChannel st.channels channelName with
      | some _ =>
        let fresh := newStateChannel channelName st.now
        let finalModes := modeFold m st.nick modes.toList 1 false fresh.modes
        PanicOr.ok { st with channels := setChannel st.channels { fresh with modes := finalModes } }
      | none =>
        if modePanics m st.nick modes.toList 1 then PanicOr.panic
        else PanicOr.ok st
    else PanicOr.ok st
  else PanicOr.ok st

/-- part_003 lines 134-155: upstream CAP LS may disable the message-tags
emulation, and otherwise the cap list of the final LS line is extended
with " message-tags". -/
def upCapLsBlock (st : Client) (m : Msg) : Client × Msg × Bool :=
  if 3 ≤ m.params.length ∧ asciiUpper m.command = "CAP" ∧ m.getParamU 1 "" = "LS" then
    let caps :=
      if 4 ≤ m.params.length ∧ m.getParam 2 "" = "*" then m.getParamU 3 ""
      else m.getParamU 2 ""
    let st2 :=
      if containsOneOf caps ["DRAFT/MESSAGE-TAGS-0.2", "MESSAGE-TAGS"] = true then
        { st with featMsgTags := false }
      else st
    if st2.featMsgTags = true ∧ m.getParam 2 "" ≠ "*" then
      (st2, { m with params := m.params.set 2 (m.getParam 2 "" ++ " message-tags") }, false)
    else (st2, m, true)
  else (st, m, true)

/-- part_003 lines 159-169: a CAP ACK that does not already mention
MESSAGE-TAGS has the remembered requested cap appended to `Params[2]`
(which panics when fewer than three parameters exist), and the
remembrance is cleared. -/
def upCapAckBlock (st : Client) (m : Msg) : PanicOr (Client × Msg × Bool) :=
  if st.reqMTCap ≠ "" ∧ asciiUpper m.command = "CAP" ∧ m.getParamU 1 "" = "ACK" ∧
      strContains (m.getParamU 2 "") "MESSAGE-TAGS" = false then
    if m.params.length < 3 then PanicOr.panic
    else
      PanicOr.ok
        ({ st with reqMTCap := "" },
          { m with params := m.params.set 2 (m.getParam 2 "" ++ " " ++ st.reqMTCap) }, false)
  else PanicOr.ok (st, m, true)

/-- Modelled from the spec (§4.D, the store source is not in the tree):
client-tag-capable commands are PRIVMSG, NOTICE and TAGMSG. -/
def canContainClientTags (m : Msg) : Bool :=
  m.command == "PRIVMSG" || m.command == "NOTICE" || m.command == "TAGMSG"

/-- part_003 lines 171-182: re-attach stored client tags to a taggable
echo; the shared message-tag store (source not in the tree) is an oracle. -/
def upTagMergeBlock (store : Msg → Option (List (String × String))) (st : Client) (m : Msg) :
    Msg × Bool :=
  if st.featMsgTags = true ∧ canContainClientTags m = true then
    match store m with
    | some mTags =>
      ({ m with tags := mTags.foldl (fun acc kv => tagSet acc kv.1 kv.2) m.tags }, false)
    | none => (m, true)
  else (m, true)

/-- part_003 `ProcessLineFromUpstream`: the guarded blocks in source
order; a panic drops the line, keeping the state mutations already
applied; emissions are the signals sent while processing. -/
def procUpstream (store : Msg → Option (List (String × String))) (upCfg : ConfigUpstream)
    (st : Client) (m : Msg) : Client × List Emit × UpFwd :=
  let st1 := upNickBlock st m
  let st2 := up001Block upCfg st1 m
  match up005Block st2 m with
  | PanicOr.panic => (st2, [], UpFwd.dropped)
  | PanicOr.ok st3 =>
    let inj := upInjectBlock st3 m
    let st4 := inj.1
    let emits := inj.2
    let st5 := upJoinBlock st4 m
    let st6 := upPartBlock st5 m
    let st7 := upQuitBlock st6 m
    let st8 := up900Block st7 m
    let st9 := up901Block st8 m
    match upModeBlock st9 m with
    | PanicOr.panic => (st9, emits, UpFwd.dropped)
    | PanicOr.ok st10 =>
      let ls := upCapLsBlock st10 m
      match upCapAckBlock ls.1 ls.2.1 with
      | PanicOr.panic => (ls.1, emits, UpFwd.dropped)
      | PanicOr.ok ack =>
        let mg := upTagMergeBlock store ack.1 ack.2.1
        (ack.1, emits,
          if ls.2.2 && ack.2.2 && mg.2 then UpFwd.raw else UpFwd.msg mg.1)

/-- client.go 519-556 `handleLineFromUpstream`, restricted to the
processing pipeline: the signals emitted during processing come first,
then the processed line itself is sent as a `data` signal (unless it was
dropped). -/
def handleLineFromUpstream (store : Msg → Option (List (String × String)))
    (upCfg : ConfigUpstream) (st : Client) (m : Msg) : Client × List Emit :=
  let r := procUpstream store upCfg st m
  (r.1, r.2.1 ++
    (match r.2.2 with
     | UpFwd.raw => [Emit.dataMsg m]
     | UpFwd.msg m2 => [Emit.dataMsg m2]
     | UpFwd.dropped => []))

/-- Folding `ProcessLineFromUpstream` over a stream of upstream lines
(state part). -/
def upRunState (store : Msg → Option (List (String × String))) (upCfg : ConfigUpstream)
    (st : Client) (msgs : List Msg) : Client :=
  msgs.foldl (fun s m => (procUpstream store upCfg s m).1) st

/-- Number of signals emitted from inside the processor across a stream
(the only such signal is the synthetic 005). -/
def upSynthCount (store : Msg → Option (List (String × String))) (upCfg : ConfigUpstream)
    (st : Client) : List Msg → Nat
  | [] => 0
  | m :: rest =>
    (procUpstream store upCfg st m).2.1.length +
      upSynthCount store upCfg (procUpstream store upCfg st m).1 rest

/-! ### C4: the throttled input channel (utils.go `ThrottledStringChannel`) -/

/-- utils.go 137-147 `run`: for each message from the input channel, wait
on the (current) limiter, then forward the message; when the input channel
closes, close the output channel.  The limiter's token bucket is an
abstract state advanced by `wait`; waiting never drops or reorders. -/
def throttledRun {L : Type} (wait : L → L) (lim : L) :
    List String → Bool → List String × Bool × L
  | [], inClosed => ([], inClosed, lim)
  | msg :: rest, inClosed =>
    let r := throttledRun wait (wait lim) rest inClosed
    (msg :: r.1, r.2.1, r.2.2)

/-! ### C3: the ISUPPORT injection protocol over a whole upstream stream -/

/-- Spec-side marker: the prefix contains a 005 line. -/
def seen005 (msgs : List Msg) : Bool :=
  msgs.any (fun m => m.command == "005")

/-- Spec-side marker: a non-005 line has already followed some 005 line
(`received` carries whether a 005 was seen before this suffix). -/
def injAfter (received : Bool) : List Msg → Bool
  | [] => false
  | m :: rest =>
    if m.command = "005" then injAfter true rest
    else if received then true
    else injAfter received rest

/-- Well-formedness of a stream: every 005 line has at least the nick and
the trailing text parameter (real ISUPPORT lines always do; a one-parameter
005 panics in the slice expression before mutating anything). -/
def wf005 (msgs : List Msg) : Prop :=
  ∀ m ∈ msgs, m.command = "005" → 2 ≤ m.params.length

/-! ### String helpers for the client-side processors -/

def strJoin (sep : String) : List String → String
  | [] => ""
  | [x] => x
  | x :: rest => x ++ sep ++ strJoin sep rest

def lastIdxOf (c : Char) : List Char → Option Nat
  | [] => none
  | x :: rest =>
    match lastIdxOf c rest with
    | some i => some (i + 1)
    | none => if x = c then some 0 else none

def digitsAux : List Char → Nat → Option Nat
  | [], acc => some acc
  | c :: rest, acc =>
    if c.isDigit then digitsAux rest (acc * 10 + (c.toNat - 48)) else none

def digitsToNat? : List Char → Option Nat
  | [] => none
  | l => digitsAux l 0

/-- Go `strconv.Atoi`: an optional sign followed by digits, nothing else. -/
def parseAtoi (s : String) : Option Int :=
  match s.data with
  | '+' :: rest => (digitsToNat? rest).map Int.ofNat
  | '-' :: rest => (digitsToNat? rest).map (fun n => -(Int.ofNat n))
  | l => (digitsToNat? l).map Int.ofNat

def replaceFuel : Nat → List Char → List Char → List Char → List Char
  | 0, l, _, _ => l
  | _ + 1, [], _, _ => []
  | fuel + 1, c :: rest, sub, repl =>
    if sub ≠ [] ∧ listStartsWith (c :: rest) sub = true then
      repl ++ replaceFuel fuel (List.drop sub.length (c :: rest)) sub repl
    else c :: replaceFuel fuel rest sub repl

/-- Go `strings.Replace(s, sub, repl, -1)` for a non-empty pattern. -/
def strReplace (s sub repl : String) : String :=
  if sub = "" then s
  else String.mk (replaceFuel (s.data.length + 1) s.data sub.data repl.data)

/-- Go `%02x` of a small number: at least two lower-case hex digits. -/
def hexPad2 (n : Nat) : String :=
  let ds := Nat.toDigits 16 n
  if ds.length < 2 then String.mk ('0' :: ds) else String.mk ds

/-- utils.go `Ipv4ToHex` for well-formed dotted quads: scan up to four
dot-separated decimal fields (unparsed fields read as 0) and print each as
two hex digits. -/
def ipv4ToHex (ip : String) : String :=
  let parts := strSplitCh '.' ip
  String.join ((List.range 4).map
    (fun i => hexPad2 (((parseAtoi (parts.getD i "")).getD 0).toNat)))

/-- utils.go `makeClientReplacements`, over the client fields it reads
(`%a` remote address, `%i` IPv4 hex form, `%h` reverse hostname,
`%n` nick). -/
def makeClientReplacements (format : String)
    (remoteAddr remoteHostname nick : String) : String :=
  let r1 := strReplace format "%a" remoteAddr
  let r2 := strReplace r1 "%i" (ipv4ToHex remoteAddr)
  let r3 := strReplace r2 "%h" remoteHostname
  strReplace r3 "%n" nick

/-! ### ProcessLineFromClient (unnamed part_003, lines 191-495) -/

/-- client.go 241-299 `connectUpstream`, up to the dial initiation in line
244 (`c.UpstreamStarted = true`): upstream selection, the actual dial and
the hook dispatch perform I/O and are outside the model; the ghost
counter `dials` counts initiations. -/
def connectUpstream (st : Client) : Client :=
  { st with upstreamStarted := true, dials := st.dials + 1 }

/-- part_003 lines 198-209 `maybeConnectUpstream`. -/
def maybeConnectUpstream (st : Client) : Client :=
  let verified : Bool :=
    if st.requiresVerification = true ∧ st.verified = false then false else true
  if st.upstreamStarted = false ∧ st.username ≠ "" ∧ st.nick ≠ "" ∧ verified = true then
    connectUpstream st
  else st

/-- part_003 line 16. -/
def MAX_EXTJWT_SIZE : Nat := 200

/-- part_003 lines 479-489, the token-splitting loop (`tokenPartM` copies
the base message and appends "*" plus one chunk; the final message appends
the remainder).  The loop is driven by fuel so that it evaluates; any fuel
of at least the token length behaves like the source loop. -/
def extjwtLoopFuel : Nat → Msg → List Char → List Msg
  | 0, tokenM, tok => [{ tokenM with params := tokenM.params ++ [String.mk tok] }]
  | fuel + 1, tokenM, tok =>
    if MAX_EXTJWT_SIZE < tok.length then
      { tokenM with params := tokenM.params ++ ["*", String.mk (tok.take MAX_EXTJWT_SIZE)] } ::
        extjwtLoopFuel fuel tokenM (tok.drop MAX_EXTJWT_SIZE)
    else [{ tokenM with params := tokenM.params ++ [String.mk tok] }]

def extjwtLoop (tokenM : Msg) (tok : List Char) : List Msg :=
  extjwtLoopFuel (tok.length + 1) tokenM tok

/-- Result of `ProcessLineFromClient` for the line itself: forwarded as
received, forwarded after re-serialization, absorbed (empty line), or an
error return (the caller drops the line). -/
inductive Fwd where
  | raw
  | msg (m : Msg)
  | absorbed
  | errLine
deriving Repr, DecidableEq

/-- part_003 lines 211-232, the CAPTCHA gate. -/
def captchaBlock (verifyCaptcha : String → Bool) (st : Client) (m : Msg) :
    Client × List Emit × Fwd :=
  let ok : Bool :=
    if 1 ≤ m.params.length then verifyCaptcha (m.getParam 0 "") else false
  if ok = false then
    (st, [Emit.dataRaw "ERROR :Invalid captcha", Emit.stateSig "closed" "bad_captcha",
      Emit.shutdownEv "unverifed"], Fwd.absorbed)
  else
    (maybeConnectUpstream { st with verified := true }, [], Fwd.absorbed)

/-- part_003 lines 281-325, the HOST command. -/
def hostBlock (cfg : Config) (st : Client) (m : Msg) : Client × List Emit × Fwd :=
  if cfg.gatewayMode = false then (st, [], Fwd.absorbed)
  else if m.params.length = 0 then (st, [], Fwd.absorbed)
  else
    let addr := m.getParam 0 ""
    if addr = "" then
      (st, [Emit.dataRaw "ERROR :Missing host", Emit.shutdownEv "missing_host"], Fwd.absorbed)
    else
      match lastIdxOf ':' addr.data with
      | none =>
        ({ st with destHost := addr, destPort := 6667, destTLS := false }, [], Fwd.absorbed)
      | some i =>
        let dHost := String.mk (addr.data.take i)
        let portParam := addr.data.drop (i + 1)
        if 0 < portParam.length ∧ portParam.headD ' ' = '+' then
          let dPort := (parseAtoi (String.mk (portParam.drop 1))).getD 6697
          ({ st with destHost := dHost, destTLS := true, destPort := dPort }, [], Fwd.absorbed)
        else
          let dPort := (parseAtoi (String.mk portParam)).getD 6667
          ({ st with destHost := dHost, destPort := dPort }, [], Fwd.absorbed)

/-- part_003 lines 337-365, the CAP REQ wrapping of message-tags.  The
result is the updated state, possibly a synthesized ACK, and either the
rewritten request to forward or an absorption marker. -/
def capReqBlock (st : Client) (m : Msg) : Client × List Emit × Option (Msg × Bool) :=
  let reqCaps := asciiLower (m.getParam 1 "")
  if strContains reqCaps "message-tags" = true then
    let caps := strSplitCh ' ' reqCaps
    let acc := caps.foldl
      (fun (acc : List String × String) tok =>
        if strContains (asciiLower tok) "message-tags" = false then (acc.1 ++ [tok], acc.2)
        else (acc.1, tok))
      ([], st.reqMTCap)
    let stR := { st with reqMTCap := acc.2 }
    if acc.1.length = 0 then
      (stR, [Emit.dataRaw ("CAP * ACK :" ++ stR.reqMTCap)], none)
    else
      (stR, [], some ({ m with params := m.params.set 1 (strJoin " " acc.1) }, false))
  else if containsOneOf reqCaps ["message-tags", "account-tag", "server-time", "batch"] = false then
    ({ st with featMsgTags := false }, [], some (m, true))
  else
    (st, [], some (m, true))

/-- The lower-cased requested-capability tokens of a CAP REQ
(part_003 lines 338-343). -/
def capsRequested (m : Msg) : List String :=
  strSplitCh ' ' (asciiLower (m.getParam 1 ""))

/-- The requested capabilities that survive the message-tags stripping
loop (part_003 lines 344-351, `newCaps`). -/
def keptCaps (m : Msg) : List String :=
  (capsRequested m).filter (fun t => !strContains (asciiLower t) "message-tags")

/-- The token the stripping loop leaves in `RequestedMessageTagsCap`: the
last lower-cased requested token containing "message-tags", or the
previous remembrance when none matches (part_003 line 350). -/
def rememberedCap (st : Client) (m : Msg) : String :=
  (capsRequested m).foldl
    (fun r t => if strContains (asciiLower t) "message-tags" = false then r else t)
    st.reqMTCap

/-- part_003 lines 410-492, the EXTJWT block.  The JWT claim payload and
its HMAC signature come from the external jwt library; the signed token
is the oracle `signedToken` (`none` models a signing error). -/
def extjwtBlock (signedToken : Option String) (st : Client) (m : Msg) :
    Client × List Emit × Fwd :=
  let tokenTarget := m.getParam 0 ""
  let tokenService := m.getParam 1 ""
  let base0 : Option (List String) :=
    if tokenTarget = "" ∨ tokenTarget = "*" then some ["*"]
    else
      match getChannel st.channels tokenTarget with
      | none => none
      | some _ => some [tokenTarget]
  match base0 with
  | none =>
    (st, [Emit.dataMsg
      { command := "403", pfx := st.svPfx,
        params := [st.nick, tokenTarget, "No such channel"] }], Fwd.absorbed)
  | some base1 =>
    if tokenService = "" ∨ tokenService = "*" then
      let tokenM : Msg := { command := "EXTJWT", pfx := st.svPfx, params := base1 ++ ["*"] }
      match signedToken with
      | none =>
        (st, [Emit.failMsg "EXTJWT" "UNKNOWN_ERROR" "Failed to generate token"], Fwd.absorbed)
      | some tok =>
        (st, (extjwtLoop tokenM tok.data).map Emit.dataMsg, Fwd.absorbed)
    else
      (st, [Emit.failMsg "EXTJWT" "NO_SUCH_SERVICE" "No such service"], Fwd.absorbed)

/-- part_003 lines 240-253, the NICK block (state part). -/
def nickSection (st : Client) (m : Msg) : Client :=
  if asciiUpper m.command = "NICK" ∧ st.upstreamStarted = false then
    let stN := if 0 < m.params.length then { st with nick := m.getParam 0 "" } else st
    if stN.upstreamStarted = false then maybeConnectUpstream stN else stN
  else st

/-- part_003 lines 255-279, the USER block past the short-parameter error
return: the rewritten message, the new state, and whether the line may
still be forwarded as received. -/
def userSection (cfg : Config) (st : Client) (m : Msg) : Client × Msg × Bool :=
  if asciiUpper m.command = "USER" ∧ st.upstreamStarted = false then
    let uRepl := makeClientReplacements cfg.clientUsername st.remoteAddr st.remoteHostname st.nick
    let rRepl := makeClientReplacements cfg.clientRealname st.remoteAddr st.remoteHostname st.nick
    let m2 :=
      if cfg.clientUsername ≠ "" then { m with params := m.params.set 0 uRepl } else m
    let m3 :=
      if cfg.clientRealname ≠ "" then { m2 with params := m2.params.set 3 rRepl } else m2
    let stU := { st with username := m3.getParam 0 "", realname := m3.getParam 3 "" }
    (maybeConnectUpstream stU, m3, false)
  else (st, m, true)

/-- part_003 lines 327-365: CAP LS from the client enables the
message-tags emulation, then the CAP REQ wrapping runs. -/
def capSection (st : Client) (m : Msg) : Client × List Emit × Option (Msg × Bool) :=
  let st :=
    if asciiUpper m.command = "CAP" ∧ 0 < m.params.length ∧
        asciiUpper (m.getParam 0 "") = "LS" then
      { st with featMsgTags := true }
    else st
  if st.featMsgTags = true ∧ asciiUpper m.command = "CAP" ∧ m.getParamU 0 "" = "REQ" then
    capReqBlock st m
  else (st, [], some (m, true))

/-- part_003 lines 367-495: the TAGMSG fan-out, the client-tag store
write with client-tag stripping, and the EXTJWT block. -/
def tagSection (signedToken : Option String) (st : Client) (m : Msg)
    (emits : List Emit) (raw : Bool) : Client × List Emit × Fwd :=
  if st.featMsgTags = true ∧ m.command = "TAGMSG" then
    if m.params.length = 0 then (st, emits, Fwd.absorbed)
    else
      (st, emits ++ [Emit.tagmsgFan { m with pfx := { nick := st.nick } }], Fwd.absorbed)
  else
  let tagRes : List Emit × Msg × Bool :=
    if st.featMsgTags = true ∧ canContainClientTags m = true then
      ([Emit.storeAdd m],
        { m with tags := m.tags.filter (fun kv => strStartsWith kv.1 "+" = false) }, false)
    else ([], m, true)
  let emits := emits ++ tagRes.1
  let m := tagRes.2.1
  let raw := raw && tagRes.2.2
  if st.featExtJwt = true ∧ asciiUpper m.command = "EXTJWT" then
    let r := extjwtBlock signedToken st m
    (r.1, emits ++ r.2.1, r.2.2)
  else
    (st, emits, if raw then Fwd.raw else Fwd.msg m)

/-- part_003 lines 327-495, the blocks from ENCODING to the end of
`ProcessLineFromClient`, in source order. -/
def procClientRest (cfg : Config) (knownEncoding : String → Bool)
    (signedToken : Option String) (st : Client) (m : Msg) (raw : Bool) :
    Client × List Emit × Fwd :=
  if asciiUpper m.command = "ENCODING" then
    (if 0 < m.params.length ∧ knownEncoding (m.getParam 0 "") = true then
      { st with encoding := m.getParam 0 "" }
    else st, [], Fwd.absorbed)
  else
  if asciiUpper m.command = "HOST" ∧ st.upstreamStarted = false then
    hostBlock cfg st m
  else
  let capRes := capSection st m
  match capRes.2.2 with
  | none => (capRes.1, capRes.2.1, Fwd.absorbed)
  | some mr => tagSection signedToken capRes.1 mr.1 capRes.2.1 (raw && mr.2)

/-- part_003 `ProcessLineFromClient`: the guarded blocks in source order.
The CAPTCHA verifier, the charset table and the jwt signer are oracles;
the TAGMSG fan-out over the session registry is recorded as a single
`tagmsgFan` event; the message-tag store write is recorded as `storeAdd`. -/
def procClient (cfg : Config) (verifyCaptcha : String → Bool)
    (knownEncoding : String → Bool) (signedToken : Option String)
    (st : Client) (m : Msg) : Client × List Emit × Fwd :=
  if st.verified = false ∧ asciiUpper m.command = "CAPTCHA" then
    captchaBlock verifyCaptcha st m
  else
  -- NICK <nickname>
  let st := nickSection st m
  -- USER <username> <hostname> <servername> <realname>
  if asciiUpper m.command = "USER" ∧ st.upstreamStarted = false ∧ m.params.length < 4 then
    (st, [], Fwd.errLine)
  else
  let userRes := userSection cfg st m
  procClientRest cfg knownEncoding signedToken userRes.1 userRes.2.1 userRes.2.2

/-- Folding `ProcessLineFromClient` over a stream of client lines
(state part). -/
def runClient (cfg : Config) (verifyCaptcha : String → Bool)
    (knownEncoding : String → Bool) (signedToken : Option String)
    (st : Client) (msgs : List Msg) : Client :=
  msgs.foldl (fun s m => (procClient cfg verifyCaptcha knownEncoding signedToken s m).1) st

/-! ### C8: processLineToUpstream and the Recv-closed branch (client.go) -/

/-- client.go 470-517 `processLineToUpstream`: suppress a second PASS,
rewrite USER from the stored username/realname, record an explicit QUIT;
then encode (the charset conversion is the oracle `encode`, "" meaning
failure) and write to the upstream socket when one exists.  The irc.line
plugin hook is external and not modelled. -/
def processLineToUpstream (encode : String → String) (st : Client) (data : String) :
    Client × Option String :=
  if strStartsWith data "PASS " = true ∧ st.sentPass = true then (st, none)
  else
    let hj : String × Client :=
      if strStartsWith data "USER " = true then
        ("USER " ++ st.username ++ " 0 * :" ++ st.realname, st)
      else if strStartsWith (asciiUpper data) "QUIT " = true then
        (data, { st with seenQuit := true })
      else (data, st)
    let enc := encode hj.1
    if enc = "" then (hj.2, none)
    else if hj.2.upstreamConnected = true then (hj.2, some (enc ++ "\r\n"))
    else (hj.2, none)

/-- client.go 655-668: the branch taken when the throttled client stream
closes.  The synthetic QUIT is attempted only when `SeenQuit` is false,
the configuration supplies a message, and the state is
`ClientStateEnding`; afterwards `StartShutdown("client_closed")` runs. -/
def handleRecvClosed (cfg : Config) (encode : String → String) (st : Client) :
    Client × Option String :=
  if st.seenQuit = false ∧ cfg.sendQuitOnClientClose ≠ "" ∧
      st.state = ClientState.ending then
    processLineToUpstream encode st ("QUIT :" ++ cfg.sendQuitOnClientClose)
  else (st, none)

/-- A single well-formed 005 line. -/
def c3pre : List Msg :=
  [{ command := "005", params := ["alice", "FOO=1", "are supported by this server"] }]

/-- The first non-005 line following it. -/
def c3ping : Msg := { command := "PING", params := ["x"] }

/-! ### C5: the WEBIRC prelude (client.go `writeWebircLines`) -/

/-- client.go 716-731 `buildWebircTags`: space-separated `key` or
`key=value` pairs; the Go map iteration order is the list order here. -/
def buildWebircTags (tags : List (String × String)) : String :=
  tags.foldl
    (fun str kv =>
      let str2 := if str ≠ "" then str ++ " " else str
      if kv.2 = "" then str2 ++ kv.1 else str2 ++ kv.1 ++ "=" ++ kv.2)
    ""

/-- client.go 420-426: the gateway name defaults to "webircgateway", is
overridden by the gateway config, then by the upstream config. -/
def webircGatewayName (cfg : Config) (upCfg : ConfigUpstream) : String :=
  let g0 := "webircgateway"
  let g1 := if cfg.gatewayName ≠ "" then cfg.gatewayName else g0
  if upCfg.gatewayName ≠ "" then upCfg.gatewayName else g1

/-- client.go 433-436: the hostname parameter, possibly templated. -/
def webircClientHostname (cfg : Config) (addr rhost nick : String) : String :=
  if cfg.clientHostname ≠ "" then makeClientReplacements cfg.clientHostname addr rhost nick
  else rhost

/-- client.go 438-443: a remote address starting with ':' is prefixed
with '0'. -/
def webircAddrParam (addr : String) : String :=
  if strStartsWith addr ":" = true then "0" ++ addr else addr

/-- client.go 428-431: the serialized tags, ':'-prefixed when they contain
a space. -/
def webircTagsParam (tags : List (String × String)) : String :=
  let t := buildWebircTags tags
  if strContains t " " = true then ":" ++ t else t

/-- client.go 413-455 `writeWebircLines`: the lines written to the
upstream socket (none without a webirc password, else the single WEBIRC
line). -/
def writeWebircLines (cfg : Config) (upCfg : ConfigUpstream)
    (addr rhost nick : String) (tags : List (String × String)) : List String :=
  if upCfg.webircPassword = "" then []
  else
    ["WEBIRC " ++ upCfg.webircPassword ++ " " ++ webircGatewayName cfg upCfg ++ " " ++
      webircClientHostname cfg addr rhost nick ++ " " ++ webircAddrParam addr ++ " " ++
      webircTagsParam tags ++ "\n"]

def joinChars (sep : Char) : List (List Char) → List Char
  | [] => []
  | [x] => x
  | x :: rest => x ++ sep :: joinChars sep rest

def ircParamsAux : List (List Char) → List String
  | [] => []
  | t :: rest =>
    if listStartsWith t [':'] = true then [String.mk (joinChars ' ' (t.drop 1 :: rest))]
    else String.mk t :: ircParamsAux rest

/-- Modelled from the spec: §4.A's parameter grammar (the codec source is
not in the tree) — the parameter section splits on single spaces, and a
parameter introduced by a leading ':' is the trailing parameter, absorbing
the rest of the line. -/
def ircParams (s : String) : List String :=
  ircParamsAux (splitCh ' ' s.data)

/-- A concrete gateway config for evaluating the WEBIRC line. -/
def c5cfg : Config := {}

/-- A concrete upstream config with a webirc password set. -/
def c5up : ConfigUpstream := { webircPassword := "pw" }

/-- Two states related by one processing step: either the dial state is
untouched, or exactly one dial was initiated, flipping `upstreamStarted`
from false to true. -/
def dialStep (a b : Client) : Prop :=
  (b.upstreamStarted = a.upstreamStarted ∧ b.dials = a.dials) ∨
  (a.upstreamStarted = false ∧ b.upstreamStarted = true ∧ b.dials = a.dials + 1)

/-- A session state that is ready to connect. -/
def c2st : Client := { nick := "a", username := "b" }

/-- A NICK line followed by a four-parameter USER line. -/
def c2msgs : List Msg :=
  [{ command := "NICK", params := ["a"] },
   { command := "USER", params := ["b", "0", "*", "r"] }]

/-- A session with the message-tags emulation enabled. -/
def c7st : Client := { featMsgTags := true }

/-- A CAP REQ asking for message-tags alongside batch. -/
def c7msg : Msg := { command := "CAP", params := ["REQ", "message-tags batch"] }

/-- pkg state holding channel #c, with the EXTJWT feature on. -/
def c10st : Client :=
  { featExtJwt := true, channels := setChannel (fun _ => none) (newStateChannel "#c" 0) }

/-- A 201-character signed token (one full chunk plus one character). -/
def c10tok : String := String.mk (List.replicate 201 'a')

/-- The 200-character chunk carried by the continuation message. -/
def c10chunk : String := String.mk (List.replicate 200 'a')

/-- A session whose own nick is "me", tracking channel #c. -/
def c6qst : Client :=
  { nick := "me", channels := setChannel (fun _ => none) (newStateChannel "#c" 0) }

/-! ## Theorems -/

theorem sigInv_init (cs : ClientState) : SigInv (sigInit cs) := by
  refine ⟨rfl, rfl, rfl, ?_⟩
  intro h
  simp [sigInit] at h

theorem sigInv_step (s : SigSt) (op : SigOp) (h : SigInv s) : SigInv (sigStep s op) := by
  obtain ⟨h1, h2, h3, h4⟩ := h
  cases op with
  | start r =>
    by_cases hs : s.shuttingDown
    · simp [sigStep, startShutdown, hs, SigInv, h1, h2, h3, h4 hs]
    · simp at hs
      simp [sigStep, startShutdown, hs, SigInv, h1, h2, h3]
  | send sig args =>
    by_cases hs : s.shuttingDown
    · simp [sigStep, sendClientSignal, hs, SigInv, h1, h2, h3, h4 hs]
    · simp at hs
      cases args with
      | nil => simp [sigStep, sendClientSignal, hs, sigEnqueue, SigInv, h1, h2, h3, hs ▸ h2]
      | cons a rest =>
        cases rest with
        | nil => simp [sigStep, sendClientSignal, hs, sigEnqueue, SigInv, h1, h2, h3, hs ▸ h2]
        | cons b rest2 =>
          cases rest2 with
          | nil => simp [sigStep, sendClientSignal, hs, sigEnqueue, SigInv, h1, h2, h3, hs ▸ h2]
          | cons c rest3 => simp [sigStep, sendClientSignal, hs, SigInv, h1, h2, h3]

theorem sigInv_run (s : SigSt) (ops : List SigOp) (h : SigInv s) : SigInv (sigRun s ops) := by
  induction ops generalizing s with
  | nil => exact h
  | cons op rest ih => exact ih _ (sigInv_step s op h)

theorem sigStep_shuttingDown_mono (s : SigSt) (op : SigOp) (h : s.shuttingDown = true) :
    (sigStep s op).shuttingDown = true := by
  cases op with
  | start r => simp [sigStep, startShutdown, h]
  | send sig args => simp [sigStep, sendClientSignal, h]

theorem sigRun_shuttingDown_mono (s : SigSt) (ops : List SigOp) (h : s.shuttingDown = true) :
    (sigRun s ops).shuttingDown = true := by
  induction ops generalizing s with
  | nil => exact h
  | cons op rest ih => exact ih _ (sigStep_shuttingDown_mono s op h)

/-- Claim C1: across any serialized sequence of `StartShutdown` and
`SendClientSignal` calls on a fresh session, a send on the closed Signals
channel never happens and the channel is closed at most once; moreover
after any sequence containing a `StartShutdown`, the latch is set, the
state is `ending`, the channel has been closed exactly once, every further
`StartShutdown` is a no-op, and every further `SendClientSignal` enqueues
nothing. -/
theorem c1_shutdown_latch :
    (∀ (cs : ClientState) (ops : List SigOp),
      (sigRun (sigInit cs) ops).sentOnClosed = false ∧
      (sigRun (sigInit cs) ops).closeCount ≤ 1) ∧
    (∀ (cs : ClientState) (pre : List SigOp) (r : String) (suf : List SigOp),
      (sigRun (sigInit cs) (pre ++ SigOp.start r :: suf)).shuttingDown = true ∧
      (sigRun (sigInit cs) (pre ++ SigOp.start r :: suf)).connState = ClientState.ending ∧
      (sigRun (sigInit cs) (pre ++ SigOp.start r :: suf)).signalsClosed = true ∧
      (sigRun (sigInit cs) (pre ++ SigOp.start r :: suf)).closeCount = 1 ∧
      (∀ r2, startShutdown (sigRun (sigInit cs) (pre ++ SigOp.start r :: suf)) r2 =
        sigRun (sigInit cs) (pre ++ SigOp.start r :: suf)) ∧
      (∀ sig args,
        (sendClientSignal (sigRun (sigInit cs) (pre ++ SigOp.start r :: suf)) sig args).queued =
          (sigRun (sigInit cs) (pre ++ SigOp.start r :: suf)).queued)) := by
  constructor
  · intro cs ops
    have h := sigInv_run (sigInit cs) ops (sigInv_init cs)
    obtain ⟨h1, _, h3, _⟩ := h
    refine ⟨h3, ?_⟩
    rw [h1]
    split <;> omega
  · intro cs pre r suf
    set sMid := sigStep (sigRun (sigInit cs) pre) (SigOp.start r) with hMid
    have hrunEq : sigRun (sigInit cs) (pre ++ SigOp.start r :: suf) = sigRun sMid suf := by
      rw [hMid]
      simp [sigRun, List.foldl_append]
    have hPre : SigInv (sigRun (sigInit cs) pre) := sigInv_run _ _ (sigInv_init cs)
    have hMidDown : sMid.shuttingDown = true := by
      rw [hMid]
      simp only [sigStep, startShutdown]
      split <;> simp_all
    have hMidInv : SigInv sMid := sigInv_step _ _ hPre
    have hFinInv : SigInv (sigRun sMid suf) := sigInv_run _ _ hMidInv
    have hFinDown : (sigRun sMid suf).shuttingDown = true :=
      sigRun_shuttingDown_mono _ _ hMidDown
    obtain ⟨f1, f2, _, f4⟩ := hFinInv
    rw [hrunEq]
    refine ⟨hFinDown, f4 hFinDown, ?_, ?_, ?_, ?_⟩
    · rw [f2, hFinDown]
    · rw [f1, hFinDown]
      rfl
    · intro r2
      simp [startShutdown, hFinDown]
    · intro sig args
      simp [sendClientSignal, hFinDown]

/-! ### Frame lemmas: which fields each upstream block leaves alone. -/

@[simp] theorem upNickBlock_isReceived (st : Client) (m : Msg) :
    (upNickBlock st m).isReceived = st.isReceived := by
  unfold upNickBlock; split <;> rfl

@[simp] theorem upNickBlock_isInjected (st : Client) (m : Msg) :
    (upNickBlock st m).isInjected = st.isInjected := by
  unfold upNickBlock; split <;> rfl

@[simp] theorem upNickBlock_isTokens (st : Client) (m : Msg) :
    (upNickBlock st m).isTokens = st.isTokens := by
  unfold upNickBlock; split <;> rfl

@[simp] theorem upNickBlock_isTags (st : Client) (m : Msg) :
    (upNickBlock st m).isTags = st.isTags := by
  unfold upNickBlock; split <;> rfl

@[simp] theorem upNickBlock_featExtJwt (st : Client) (m : Msg) :
    (upNickBlock st m).featExtJwt = st.featExtJwt := by
  unfold upNickBlock; split <;> rfl

@[simp] theorem upNickBlock_limiter (st : Client) (m : Msg) :
    (upNickBlock st m).limiter = st.limiter := by
  unfold upNickBlock; split <;> rfl

@[simp] theorem upNickBlock_channels (st : Client) (m : Msg) :
    (upNickBlock st m).channels = st.channels := by
  unfold upNickBlock; split <;> rfl

@[simp] theorem upNickBlock_reqMTCap (st : Client) (m : Msg) :
    (upNickBlock st m).reqMTCap = st.reqMTCap := by
  unfold upNickBlock; split <;> rfl

@[simp] theorem up001Block_isReceived (upCfg : ConfigUpstream) (st : Client) (m : Msg) :
    (up001Block upCfg st m).isReceived = st.isReceived := by
  unfold up001Block; split <;> rfl

@[simp] theorem up001Block_isInjected (upCfg : ConfigUpstream) (st : Client) (m : Msg) :
    (up001Block upCfg st m).isInjected = st.isInjected := by
  unfold up001Block; split <;> rfl

@[simp] theorem up001Block_isTokens (upCfg : ConfigUpstream) (st : Client) (m : Msg) :
    (up001Block upCfg st m).isTokens = st.isTokens := by
  unfold up001Block; split <;> rfl

@[simp] theorem up001Block_isTags (upCfg : ConfigUpstream) (st : Client) (m : Msg) :
    (up001Block upCfg st m).isTags = st.isTags := by
  unfold up001Block; split <;> rfl

@[simp] theorem up001Block_featExtJwt (upCfg : ConfigUpstream) (st : Client) (m : Msg) :
    (up001Block upCfg st m).featExtJwt = st.featExtJwt := by
  unfold up001Block; split <;> rfl

@[simp] theorem up001Block_channels (upCfg : ConfigUpstream) (st : Client) (m : Msg) :
    (up001Block upCfg st m).channels = st.channels := by
  unfold up001Block; split <;> rfl

@[simp] theorem up001Block_reqMTCap (upCfg : ConfigUpstream) (st : Client) (m : Msg) :
    (up001Block upCfg st m).reqMTCap = st.reqMTCap := by
  unfold up001Block; split <;> rfl

theorem up001Block_limiter (upCfg : ConfigUpstream) (st : Client) (m : Msg) :
    (up001Block upCfg st m).limiter =
      (if 0 < m.params.length ∧ m.command = "001" then
        { limit := RLimit.lim upCfg.throttle, burst := 1 } else st.limiter) := by
  unfold up001Block; split <;> rfl

theorem up005Block_panic_iff (st : Client) (m : Msg) :
    up005Block st m = PanicOr.panic ↔ (m.command = "005" ∧ m.params.length = 1) := by
  unfold up005Block
  by_cases h1 : 0 < m.params.length ∧ m.command = "005"
  · rw [if_pos h1]
    by_cases h2 : m.params.length = 1
    · rw [if_pos h2]
      simp [h1.2, h2]
    · rw [if_neg h2]
      simp [h2]
  · rw [if_neg h1]
    constructor
    · intro h; exact absurd h (by simp)
    · intro hc
      exact absurd ⟨by omega, hc.1⟩ h1

theorem up005Block_ok_proj (st : Client) (m : Msg) (st' : Client)
    (h : up005Block st m = PanicOr.ok st') :
    st'.isReceived = (if m.command = "005" ∧ 2 ≤ m.params.length then true else st.isReceived) ∧
    st'.isInjected = st.isInjected ∧
    st'.limiter = st.limiter ∧
    st'.channels = st.channels ∧
    st'.featExtJwt = st.featExtJwt ∧
    st'.nick = st.nick ∧
    st'.svPfx = st.svPfx ∧
    st'.reqMTCap = st.reqMTCap ∧
    (m.command ≠ "005" → st'.isTokens = st.isTokens ∧ st'.isTags = st.isTags) := by
  unfold up005Block at h
  by_cases h1 : 0 < m.params.length ∧ m.command = "005"
  · rw [if_pos h1] at h
    by_cases h2 : m.params.length = 1
    · rw [if_pos h2] at h
      exact absurd h (by simp)
    · rw [if_neg h2] at h
      simp only [PanicOr.ok.injEq] at h
      subst h
      have hlen : 2 ≤ m.params.length := by omega
      refine ⟨?_, rfl, rfl, rfl, rfl, rfl, rfl, rfl, ?_⟩
      · rw [if_pos ⟨h1.2, hlen⟩]
      · intro hne; exact absurd h1.2 hne
  · rw [if_neg h1] at h
    simp only [PanicOr.ok.injEq] at h
    subst h
    refine ⟨?_, rfl, rfl, rfl, rfl, rfl, rfl, rfl, fun _ => ⟨rfl, rfl⟩⟩
    have hng : ¬(m.command = "005" ∧ 2 ≤ m.params.length) := by
      intro hc
      exact h1 ⟨by omega, hc.1⟩
    rw [if_neg hng]

theorem upInjectBlock_proj (st : Client) (m : Msg) :
    (upInjectBlock st m).1.isReceived = st.isReceived ∧
    (upInjectBlock st m).1.isInjected =
      (if st.isReceived = true ∧ m.command ≠ "005" then true else st.isInjected) ∧
    (upInjectBlock st m).1.limiter = st.limiter ∧
    (upInjectBlock st m).1.channels = st.channels ∧
    (upInjectBlock st m).1.nick = st.nick ∧
    (upInjectBlock st m).1.reqMTCap = st.reqMTCap ∧
    (upInjectBlock st m).1.featExtJwt =
      (if st.isReceived = true ∧ st.isInjected = false ∧ m.command ≠ "005" ∧
          hasToken st.isTokens "EXTJWT" = true then false else st.featExtJwt) := by
  unfold upInjectBlock
  split_ifs with h1 h2 <;> simp_all

theorem upInjectBlock_emits (st : Client) (m : Msg) :
    (upInjectBlock st m).2 =
      (if st.isReceived = true ∧ st.isInjected = false ∧ m.command ≠ "005" ∧
          hasToken st.isTokens "EXTJWT" = false then
        [Emit.dataMsg
          { command := "005"
            params := [st.nick, "EXTJWT=1", "are supported by this server"]
            pfx := st.svPfx
            tags := match tagGet st.isTags "time" with
              | some v => [("time", v)]
              | none => [] }]
      else []) := by
  unfold upInjectBlock
  split_ifs with h1 h2 <;> simp_all

@[simp] theorem upJoinBlock_isReceived (st : Client) (m : Msg) :
    (upJoinBlock st m).isReceived = st.isReceived := by
  unfold upJoinBlock; split <;> rfl

@[simp] theorem upJoinBlock_isInjected (st : Client) (m : Msg) :
    (upJoinBlock st m).isInjected = st.isInjected := by
  unfold upJoinBlock; split <;> rfl

@[simp] theorem upJoinBlock_featExtJwt (st : Client) (m : Msg) :
    (upJoinBlock st m).featExtJwt = st.featExtJwt := by
  unfold upJoinBlock; split <;> rfl

@[simp] theorem upJoinBlock_limiter (st : Client) (m : Msg) :
    (upJoinBlock st m).limiter = st.limiter := by
  unfold upJoinBlock; split <;> rfl

@[simp] theorem upJoinBlock_reqMTCap (st : Client) (m : Msg) :
    (upJoinBlock st m).reqMTCap = st.reqMTCap := by
  unfold upJoinBlock; split <;> rfl

@[simp] theorem upPartBlock_isReceived (st : Client) (m : Msg) :
    (upPartBlock st m).isReceived = st.isReceived := by
  unfold upPartBlock; split <;> rfl

@[simp] theorem upPartBlock_isInjected (st : Client) (m : Msg) :
    (upPartBlock st m).isInjected = st.isInjected := by
  unfold upPartBlock; split <;> rfl

@[simp] theorem upPartBlock_featExtJwt (st : Client) (m : Msg) :
    (upPartBlock st m).featExtJwt = st.featExtJwt := by
  unfold upPartBlock; split <;> rfl

@[simp] theorem upPartBlock_limiter (st : Client) (m : Msg) :
    (upPartBlock st m).limiter = st.limiter := by
  unfold upPartBlock; split <;> rfl

@[simp] theorem upPartBlock_reqMTCap (st : Client) (m : Msg) :
    (upPartBlock st m).reqMTCap = st.reqMTCap := by
  unfold upPartBlock; split <;> rfl

@[simp] theorem upQuitBlock_isReceived (st : Client) (m : Msg) :
    (upQuitBlock st m).isReceived = st.isReceived := by
  unfold upQuitBlock; split <;> rfl

@[simp] theorem upQuitBlock_isInjected (st : Client) (m : Msg) :
    (upQuitBlock st m).isInjected = st.isInjected := by
  unfold upQuitBlock; split <;> rfl

@[simp] theorem upQuitBlock_featExtJwt (st : Client) (m : Msg) :
    (upQuitBlock st m).featExtJwt = st.featExtJwt := by
  unfold upQuitBlock; split <;> rfl

@[simp] theorem upQuitBlock_limiter (st : Client) (m : Msg) :
    (upQuitBlock st m).limiter = st.limiter := by
  unfold upQuitBlock; split <;> rfl

@[simp] theorem upQuitBlock_reqMTCap (st : Client) (m : Msg) :
    (upQuitBlock st m).reqMTCap = st.reqMTCap := by
  unfold upQuitBlock; split <;> rfl

@[simp] theorem up900Block_isReceived (st : Client) (m : Msg) :
    (up900Block st m).isReceived = st.isReceived := by
  unfold up900Block; split <;> rfl

@[simp] theorem up900Block_isInjected (st : Client) (m : Msg) :
    (up900Block st m).isInjected = st.isInjected := by
  unfold up900Block; split <;> rfl

@[simp] theorem up900Block_featExtJwt (st : Client) (m : Msg) :
    (up900Block st m).featExtJwt = st.featExtJwt := by
  unfold up900Block; split <;> rfl

@[simp] theorem up900Block_limiter (st : Client) (m : Msg) :
    (up900Block st m).limiter = st.limiter := by
  unfold up900Block; split <;> rfl

@[simp] theorem up900Block_channels (st : Client) (m : Msg) :
    (up900Block st m).channels = st.channels := by
  unfold up900Block; split <;> rfl

@[simp] theorem up900Block_reqMTCap (st : Client) (m : Msg) :
    (up900Block st m).reqMTCap = st.reqMTCap := by
  unfold up900Block; split <;> rfl

@[simp] theorem up901Block_isReceived (st : Client) (m : Msg) :
    (up901Block st m).isReceived = st.isReceived := by
  unfold up901Block; split <;> rfl

@[simp] theorem up901Block_isInjected (st : Client) (m : Msg) :
    (up901Block st m).isInjected = st.isInjected := by
  unfold up901Block; split <;> rfl

@[simp] theorem up901Block_featExtJwt (st : Client) (m : Msg) :
    (up901Block st m).featExtJwt = st.featExtJwt := by
  unfold up901Block; split <;> rfl

@[simp] theorem up901Block_limiter (st : Client) (m : Msg) :
    (up901Block st m).limiter = st.limiter := by
  unfold up901Block; split <;> rfl

@[simp] theorem up901Block_channels (st : Client) (m : Msg) :
    (up901Block st m).channels = st.channels := by
  unfold up901Block; split <;> rfl

@[simp] theorem up901Block_reqMTCap (st : Client) (m : Msg) :
    (up901Block st m).reqMTCap = st.reqMTCap := by
  unfold up901Block; split <;> rfl

theorem upModeBlock_ok_proj (st : Client) (m : Msg) (st' : Client)
    (h : upModeBlock st m = PanicOr.ok st') :
    st'.isReceived = st.isReceived ∧
    st'.isInjected = st.isInjected ∧
    st'.featExtJwt = st.featExtJwt ∧
    st'.limiter = st.limiter ∧
    st'.reqMTCap = st.reqMTCap := by
  unfold upModeBlock at h
  by_cases h1 : 0 < m.params.length ∧ m.command = "MODE"
  · rw [if_pos h1] at h
    by_cases h2 : strStartsWith (m.getParam 0 "") "#" = true
    · rw [if_pos h2] at h
      dsimp only at h
      cases hc : getChannel st.channels (m.getParam 0 "") <;> rw [hc] at h
      · by_cases h4 : modePanics m st.nick (m.getParam 1 "").toList 1 = true
        · rw [if_pos h4] at h
          exact absurd h (by simp)
        · rw [if_neg h4] at h
          simp only [PanicOr.ok.injEq] at h
          subst h
          exact ⟨rfl, rfl, rfl, rfl, rfl⟩
      · simp only [PanicOr.ok.injEq] at h
        subst h
        exact ⟨rfl, rfl, rfl, rfl, rfl⟩
    · rw [if_neg h2] at h
      simp only [PanicOr.ok.injEq] at h
      subst h
      exact ⟨rfl, rfl, rfl, rfl, rfl⟩
  · rw [if_neg h1] at h
    simp only [PanicOr.ok.injEq] at h
    subst h
    exact ⟨rfl, rfl, rfl, rfl, rfl⟩

theorem upCapLsBlock_fst_proj (st : Client) (m : Msg) :
    (upCapLsBlock st m).1.isReceived = st.isReceived ∧
    (upCapLsBlock st m).1.isInjected = st.isInjected ∧
    (upCapLsBlock st m).1.featExtJwt = st.featExtJwt ∧
    (upCapLsBlock st m).1.limiter = st.limiter ∧
    (upCapLsBlock st m).1.channels = st.channels ∧
    (upCapLsBlock st m).1.reqMTCap = st.reqMTCap := by
  unfold upCapLsBlock
  dsimp only
  split_ifs <;> exact ⟨rfl, rfl, rfl, rfl, rfl, rfl⟩

theorem upCapAckBlock_ok_proj (st : Client) (m : Msg) (r : Client × Msg × Bool)
    (h : upCapAckBlock st m = PanicOr.ok r) :
    r.1.isReceived = st.isReceived ∧
    r.1.isInjected = st.isInjected ∧
    r.1.featExtJwt = st.featExtJwt ∧
    r.1.limiter = st.limiter ∧
    r.1.channels = st.channels := by
  unfold upCapAckBlock at h
  split_ifs at h with h1 h2
  · simp only [PanicOr.ok.injEq] at h; subst h; simp
  · simp only [PanicOr.ok.injEq] at h; subst h; simp

@[simp] theorem upInjectBlock_channels (st : Client) (m : Msg) :
    (upInjectBlock st m).1.channels = st.channels := by
  unfold upInjectBlock
  split_ifs <;> rfl

@[simp] theorem upInjectBlock_nick (st : Client) (m : Msg) :
    (upInjectBlock st m).1.nick = st.nick := by
  unfold upInjectBlock
  split_ifs <;> rfl

theorem up005Block_not005 (st : Client) (m : Msg) (h : m.command ≠ "005") :
    up005Block st m = PanicOr.ok st := by
  unfold up005Block
  rw [if_neg]
  intro hc
  exact h hc.2

theorem upModeBlock_notMode (st : Client) (m : Msg) (h : m.command ≠ "MODE") :
    upModeBlock st m = PanicOr.ok st := by
  unfold upModeBlock
  rw [if_neg]
  intro hc
  exact h hc.2

theorem upModeBlock_panic_cmd (st : Client) (m : Msg) (h : upModeBlock st m = PanicOr.panic) :
    m.command = "MODE" := by
  unfold upModeBlock at h
  by_cases h1 : 0 < m.params.length ∧ m.command = "MODE"
  · exact h1.2
  · rw [if_neg h1] at h
    exact absurd h (by simp)

theorem upCapLsBlock_notCap (st : Client) (m : Msg) (h : asciiUpper m.command ≠ "CAP") :
    upCapLsBlock st m = (st, m, true) := by
  unfold upCapLsBlock
  rw [if_neg]
  intro hc
  exact h hc.2.1

theorem upCapAckBlock_notCap (st : Client) (m : Msg) (h : asciiUpper m.command ≠ "CAP") :
    upCapAckBlock st m = PanicOr.ok (st, m, true) := by
  unfold upCapAckBlock
  rw [if_neg]
  intro hc
  exact h hc.2.1

/-- The scalar state fields of one `ProcessLineFromUpstream` step, as
functions of the incoming state. -/
theorem procUpstream_scalars (store : Msg → Option (List (String × String)))
    (upCfg : ConfigUpstream) (st : Client) (m : Msg) :
    (procUpstream store upCfg st m).1.isReceived =
      (if m.command = "005" ∧ 2 ≤ m.params.length then true else st.isReceived) ∧
    (procUpstream store upCfg st m).1.isInjected =
      (if st.isReceived = true ∧ m.command ≠ "005" then true else st.isInjected) ∧
    (procUpstream store upCfg st m).1.limiter =
      (if 0 < m.params.length ∧ m.command = "001" then
        { limit := RLimit.lim upCfg.throttle, burst := 1 } else st.limiter) ∧
    (procUpstream store upCfg st m).1.featExtJwt =
      (if st.isReceived = true ∧ st.isInjected = false ∧ m.command ≠ "005" ∧
          hasToken st.isTokens "EXTJWT" = true then false else st.featExtJwt) := by
  unfold procUpstream
  dsimp only
  cases h5 : up005Block (up001Block upCfg (upNickBlock st m) m) m with
  | panic =>
    dsimp only
    rw [up005Block_panic_iff] at h5
    obtain ⟨hcmd, hlen⟩ := h5
    have hcond1 : ¬(m.command = "005" ∧ 2 ≤ m.params.length) := by
      intro hc; omega
    have hcond2 : ¬(st.isReceived = true ∧ m.command ≠ "005") := fun hc => hc.2 hcmd
    have hcond3 : ¬(0 < m.params.length ∧ m.command = "001") := by
      intro hc
      rw [hcmd] at hc
      exact absurd hc.2 (by decide)
    have hcond4 : ¬(st.isReceived = true ∧ st.isInjected = false ∧ m.command ≠ "005" ∧
        hasToken st.isTokens "EXTJWT" = true) := fun hc => hc.2.2.1 hcmd
    rw [if_neg hcond1, if_neg hcond2, if_neg hcond3, if_neg hcond4]
    refine ⟨by simp, by simp, ?_, by simp⟩
    rw [up001Block_limiter, if_neg hcond3]
    simp
  | ok st3 =>
    dsimp only
    obtain ⟨p1, p2, p3, p4, p5, p6, p7, p8, p9⟩ := up005Block_ok_proj _ _ _ h5
    simp only [up001Block_isReceived, upNickBlock_isReceived, up001Block_isInjected,
      upNickBlock_isInjected, up001Block_featExtJwt, upNickBlock_featExtJwt,
      up001Block_isTokens, upNickBlock_isTokens, up001Block_isTags,
      upNickBlock_isTags] at p1 p2 p5 p9
    rw [up001Block_limiter, upNickBlock_limiter] at p3
    obtain ⟨i1, i2, i3, i4, i5, i6, i7⟩ := upInjectBlock_proj st3 m
    cases hM : upModeBlock (up901Block (up900Block (upQuitBlock (upPartBlock
        (upJoinBlock (upInjectBlock st3 m).1 m) m) m) m) m) m with
    | panic =>
      dsimp only
      have hcmd : m.command = "MODE" := upModeBlock_panic_cmd _ _ hM
      by_cases hcm : m.command = "005" <;> simp_all
    | ok st10 =>
      dsimp only
      obtain ⟨q1, q2, q3, q4, q5⟩ := upModeBlock_ok_proj _ _ _ hM
      obtain ⟨l1, l2, l3, l4, l5, l6⟩ := upCapLsBlock_fst_proj st10 m
      cases hA : upCapAckBlock (upCapLsBlock st10 m).1 (upCapLsBlock st10 m).2.1 with
      | panic =>
        dsimp only
        by_cases hcm : m.command = "005" <;> simp_all
      | ok ack =>
        dsimp only
        obtain ⟨a1, a2, a3, a4, a5⟩ := upCapAckBlock_ok_proj _ _ _ hA
        by_cases hcm : m.command = "005" <;> simp_all

/-- The signals a `ProcessLineFromUpstream` step emits from inside the
processor: exactly the synthetic 005, under the injection conditions. -/
theorem procUpstream_emits (store : Msg → Option (List (String × String)))
    (upCfg : ConfigUpstream) (st : Client) (m : Msg) :
    (procUpstream store upCfg st m).2.1 =
      (if st.isReceived = true ∧ st.isInjected = false ∧ m.command ≠ "005" ∧
          hasToken st.isTokens "EXTJWT" = false then
        [Emit.dataMsg
          { command := "005"
            params := [(up001Block upCfg (upNickBlock st m) m).nick, "EXTJWT=1",
              "are supported by this server"]
            pfx := (up001Block upCfg (upNickBlock st m) m).svPfx
            tags := match tagGet st.isTags "time" with
              | some v => [("time", v)]
              | none => [] }]
      else []) := by
  unfold procUpstream
  dsimp only
  cases h5 : up005Block (up001Block upCfg (upNickBlock st m) m) m with
  | panic =>
    dsimp only
    rw [up005Block_panic_iff] at h5
    obtain ⟨hcmd, hlen⟩ := h5
    rw [if_neg (fun hc => hc.2.2.1 hcmd)]
  | ok st3 =>
    dsimp only
    obtain ⟨p1, p2, p3, p4, p5, p6, p7, p8, p9⟩ := up005Block_ok_proj _ _ _ h5
    simp only [up001Block_isReceived, upNickBlock_isReceived, up001Block_isInjected,
      upNickBlock_isInjected] at p1 p2
    have hemits := upInjectBlock_emits st3 m
    cases hM : upModeBlock (up901Block (up900Block (upQuitBlock (upPartBlock
        (upJoinBlock (upInjectBlock st3 m).1 m) m) m) m) m) m with
    | panic =>
      dsimp only
      have hcmd : m.command = "MODE" := upModeBlock_panic_cmd _ _ hM
      by_cases hcm : m.command = "005" <;> simp_all
    | ok st10 =>
      dsimp only
      cases hA : upCapAckBlock (upCapLsBlock st10 m).1 (upCapLsBlock st10 m).2.1 with
      | panic =>
        dsimp only
        by_cases hcm : m.command = "005" <;> simp_all
      | ok ack =>
        dsimp only
        by_cases hcm : m.command = "005" <;> simp_all

/-- When the command is none of 005 / MODE / CAP, the step's channel map is
the one produced by the JOIN/PART/QUIT tracking chain. -/
theorem procUpstream_channels_plain (store : Msg → Option (List (String × String)))
    (upCfg : ConfigUpstream) (st : Client) (m : Msg)
    (h005 : m.command ≠ "005") (hMode : m.command ≠ "MODE")
    (hCap : asciiUpper m.command ≠ "CAP") :
    (procUpstream store upCfg st m).1.channels =
      (up901Block (up900Block (upQuitBlock (upPartBlock (upJoinBlock
        (upInjectBlock (up001Block upCfg (upNickBlock st m) m) m).1 m) m) m) m) m).channels := by
  unfold procUpstream
  dsimp only
  rw [up005Block_not005 _ _ h005]
  dsimp only
  rw [upModeBlock_notMode _ _ hMode]
  dsimp only
  rw [upCapLsBlock_notCap _ _ hCap]
  dsimp only
  rw [upCapAckBlock_notCap _ _ hCap]

theorem hasChannel_setChannel (channels : String → Option StChan) (ch : StChan) (q : String) :
    hasChannel (setChannel channels ch) q =
      (if asciiLower q = asciiLower ch.name then true else hasChannel channels q) := by
  unfold hasChannel setChannel
  split <;> simp_all

theorem hasChannel_removeChannel (channels : String → Option StChan) (name q : String) :
    hasChannel (removeChannel channels name) q =
      (if asciiLower q = asciiLower name then false else hasChannel channels q) := by
  unfold hasChannel removeChannel
  split <;> simp_all

theorem hasChannel_clearChannels (q : String) : hasChannel clearChannels q = false := by
  rfl

@[simp] theorem upInjectBlock_now (st : Client) (m : Msg) :
    (upInjectBlock st m).1.now = st.now := by
  unfold upInjectBlock
  split_ifs <;> rfl

/-- The channel map produced by the JOIN/PART/QUIT tracking chain. -/
theorem chainChannels (st3 : Client) (m : Msg) :
    (up901Block (up900Block (upQuitBlock (upPartBlock (upJoinBlock
        (upInjectBlock st3 m).1 m) m) m) m) m).channels =
      (if 0 < m.params.length ∧ m.command = "JOIN" ∧ m.pfx.nick = st3.nick then
        setChannel st3.channels (newStateChannel (m.getParam 0 "") st3.now)
      else if 0 < m.params.length ∧ m.command = "PART" ∧ m.pfx.nick = st3.nick then
        removeChannel st3.channels (m.getParam 0 "")
      else if 0 < m.params.length ∧ m.command = "QUIT" ∧ m.pfx.nick = st3.nick then
        clearChannels
      else st3.channels) := by
  by_cases hJg : 0 < m.params.length ∧ m.command = "JOIN" ∧ m.pfx.nick = st3.nick
  · obtain ⟨hl, hc, hp⟩ := hJg
    simp [up901Block, up900Block, upQuitBlock, upPartBlock, upJoinBlock, hl, hc, hp]
  · by_cases hPg : 0 < m.params.length ∧ m.command = "PART" ∧ m.pfx.nick = st3.nick
    · obtain ⟨hl, hc, hp⟩ := hPg
      simp [up901Block, up900Block, upQuitBlock, upPartBlock, upJoinBlock, hl, hc, hp, hJg]
    · by_cases hQg : 0 < m.params.length ∧ m.command = "QUIT" ∧ m.pfx.nick = st3.nick
      · obtain ⟨hl, hc, hp⟩ := hQg
        simp [up901Block, up900Block, upQuitBlock, upPartBlock, upJoinBlock, hl, hc, hp,
          hJg, hPg]
      · rw [if_neg hJg, if_neg hPg, if_neg hQg]
        have hj : (upJoinBlock (upInjectBlock st3 m).1 m).channels = st3.channels := by
          unfold upJoinBlock
          rw [if_neg]
          · simp
          · intro hc
            exact hJg ⟨hc.1, hc.2.1, by
              have := hc.2.2
              rwa [upInjectBlock_nick] at this⟩
        have hjn : (upJoinBlock (upInjectBlock st3 m).1 m).nick = st3.nick := by
          unfold upJoinBlock
          split <;> simp
        have hp' : (upPartBlock (upJoinBlock (upInjectBlock st3 m).1 m) m).channels =
            st3.channels := by
          unfold upPartBlock
          rw [if_neg]
          · exact hj
          · intro hc
            exact hPg ⟨hc.1, hc.2.1, by rw [← hjn]; exact hc.2.2⟩
        have hpn : (upPartBlock (upJoinBlock (upInjectBlock st3 m).1 m) m).nick = st3.nick := by
          unfold upPartBlock
          split <;> simp [hjn]
        have hq' : (upQuitBlock (upPartBlock (upJoinBlock
            (upInjectBlock st3 m).1 m) m) m).channels = st3.channels := by
          unfold upQuitBlock
          rw [if_neg]
          · exact hp'
          · intro hc
            exact hQg ⟨hc.1, hc.2.1, by rw [← hpn]; exact hc.2.2⟩
        rw [up901Block_channels, up900Block_channels]
        exact hq'

/-- The nick is untouched when the line is neither a NICK nor a 001. -/
theorem up005ok_nick (upCfg : ConfigUpstream) (st : Client) (m : Msg) (st3 : Client)
    (h5 : up005Block (up001Block upCfg (upNickBlock st m) m) m = PanicOr.ok st3)
    (hN : m.command ≠ "NICK") (h1 : m.command ≠ "001") : st3.nick = st.nick := by
  obtain ⟨_, _, _, _, _, p6, _, _, _⟩ := up005Block_ok_proj _ _ _ h5
  rw [p6]
  unfold up001Block upNickBlock
  rw [if_neg (fun hc => h1 hc.2), if_neg (fun hc => hN hc.2.1)]

theorem up005ok_channels (upCfg : ConfigUpstream) (st : Client) (m : Msg) (st3 : Client)
    (h5 : up005Block (up001Block upCfg (upNickBlock st m) m) m = PanicOr.ok st3) :
    st3.channels = st.channels := by
  obtain ⟨_, _, _, p4, _, _, _, _, _⟩ := up005Block_ok_proj _ _ _ h5
  rw [p4]
  simp

theorem up005ok_now (upCfg : ConfigUpstream) (st : Client) (m : Msg) (st3 : Client)
    (h5 : up005Block (up001Block upCfg (upNickBlock st m) m) m = PanicOr.ok st3) :
    st3.now = st.now := by
  unfold up005Block at h5
  split_ifs at h5 with h1 h2 <;>
    (simp only [PanicOr.ok.injEq] at h5; rw [← h5]; unfold up001Block upNickBlock;
      split_ifs <;> rfl)

theorem upNickBlock_notNick (st : Client) (m : Msg) (h : m.command ≠ "NICK") :
    upNickBlock st m = st := by
  unfold upNickBlock
  rw [if_neg (fun hc => h hc.2.1)]

theorem up001Block_not001 (upCfg : ConfigUpstream) (st : Client) (m : Msg)
    (h : m.command ≠ "001") : up001Block upCfg st m = st := by
  unfold up001Block
  rw [if_neg (fun hc => h hc.2)]

theorem upModeBlock_ok_channels (st : Client) (m : Msg) (st' : Client)
    (h : upModeBlock st m = PanicOr.ok st') :
    st'.channels = st.channels ∨
    (∃ newch, newch.name = m.getParam 0 "" ∧
      (getChannel st.channels (m.getParam 0 "")).isSome = true ∧
      st'.channels = setChannel st.channels newch) := by
  unfold upModeBlock at h
  by_cases h1 : 0 < m.params.length ∧ m.command = "MODE"
  · rw [if_pos h1] at h
    by_cases h2 : strStartsWith (m.getParam 0 "") "#" = true
    · rw [if_pos h2] at h
      dsimp only at h
      cases hc : getChannel st.channels (m.getParam 0 "") <;> rw [hc] at h
      · by_cases h4 : modePanics m st.nick (m.getParam 1 "").toList 1 = true
        · rw [if_pos h4] at h
          exact absurd h (by simp)
        · rw [if_neg h4] at h
          simp only [PanicOr.ok.injEq] at h
          subst h
          exact Or.inl rfl
      · simp only [PanicOr.ok.injEq] at h
        subst h
        refine Or.inr ⟨_, rfl, ?_, rfl⟩
        simp [hc]
    · rw [if_neg h2] at h
      simp only [PanicOr.ok.injEq] at h
      subst h
      exact Or.inl rfl
  · rw [if_neg h1] at h
    simp only [PanicOr.ok.injEq] at h
    subst h
    exact Or.inl rfl

/-- Channel map of one upstream step, for non-MODE commands. -/
theorem procUpstream_channels (store : Msg → Option (List (String × String)))
    (upCfg : ConfigUpstream) (st : Client) (m : Msg) (hMode : m.command ≠ "MODE") :
    (procUpstream store upCfg st m).1.channels =
      (if 0 < m.params.length ∧ m.command = "JOIN" ∧ m.pfx.nick = st.nick then
        setChannel st.channels (newStateChannel (m.getParam 0 "") st.now)
      else if 0 < m.params.length ∧ m.command = "PART" ∧ m.pfx.nick = st.nick then
        removeChannel st.channels (m.getParam 0 "")
      else if 0 < m.params.length ∧ m.command = "QUIT" ∧ m.pfx.nick = st.nick then
        clearChannels
      else st.channels) := by
  unfold procUpstream
  dsimp only
  cases h5 : up005Block (up001Block upCfg (upNickBlock st m) m) m with
  | panic =>
    dsimp only
    rw [up005Block_panic_iff] at h5
    obtain ⟨hcmd, _⟩ := h5
    have hno : ∀ c : String, c ≠ "005" → ¬(0 < m.params.length ∧ m.command = c ∧
        m.pfx.nick = st.nick) := by
      intro c hcne hc
      rw [hcmd] at hc
      exact hcne hc.2.1.symm
    rw [if_neg (hno "JOIN" (by decide)), if_neg (hno "PART" (by decide)),
      if_neg (hno "QUIT" (by decide))]
    simp
  | ok st3 =>
    dsimp only
    rw [upModeBlock_notMode _ _ hMode]
    dsimp only
    have hchain := chainChannels st3 m
    have hchan : st3.channels = st.channels := up005ok_channels _ _ _ _ h5
    have hnow : st3.now = st.now := up005ok_now _ _ _ _ h5
    have hguard : ∀ c : String, c ≠ "NICK" → c ≠ "001" →
        ((0 < m.params.length ∧ m.command = c ∧ m.pfx.nick = st3.nick) ↔
          (0 < m.params.length ∧ m.command = c ∧ m.pfx.nick = st.nick)) := by
      intro c hcN hc1
      constructor
      · rintro ⟨hl, hc, hp⟩
        have hn : st3.nick = st.nick :=
          up005ok_nick _ _ _ _ h5 (by rw [hc]; exact hcN) (by rw [hc]; exact hc1)
        exact ⟨hl, hc, by rw [← hn]; exact hp⟩
      · rintro ⟨hl, hc, hp⟩
        have hn : st3.nick = st.nick :=
          up005ok_nick _ _ _ _ h5 (by rw [hc]; exact hcN) (by rw [hc]; exact hc1)
        exact ⟨hl, hc, by rw [hn]; exact hp⟩
    rw [hchan, hnow] at hchain
    simp only [hguard "JOIN" (by decide) (by decide),
      hguard "PART" (by decide) (by decide), hguard "QUIT" (by decide) (by decide)] at hchain
    cases hA : upCapAckBlock (upCapLsBlock (up901Block (up900Block (upQuitBlock (upPartBlock
        (upJoinBlock (upInjectBlock st3 m).1 m) m) m) m) m) m).1
        (upCapLsBlock (up901Block (up900Block (upQuitBlock (upPartBlock
          (upJoinBlock (upInjectBlock st3 m).1 m) m) m) m) m) m).2.1 with
    | panic =>
      dsimp only
      rw [(upCapLsBlock_fst_proj _ _).2.2.2.2.1]
      exact hchain
    | ok ack =>
      dsimp only
      rw [(upCapAckBlock_ok_proj _ _ _ hA).2.2.2.2,
        (upCapLsBlock_fst_proj _ _).2.2.2.2.1]
      exact hchain

/-- Channel map of one upstream MODE step: untouched, or an existing entry
replaced by a rebuilt channel object under the same name. -/
theorem procUpstream_channels_mode (store : Msg → Option (List (String × String)))
    (upCfg : ConfigUpstream) (st : Client) (m : Msg) (hMode : m.command = "MODE") :
    (procUpstream store upCfg st m).1.channels = st.channels ∨
    (∃ newch, newch.name = m.getParam 0 "" ∧
      (getChannel st.channels (m.getParam 0 "")).isSome = true ∧
      (procUpstream store upCfg st m).1.channels = setChannel st.channels newch) := by
  unfold procUpstream
  dsimp only
  rw [upNickBlock_notNick _ _ (by rw [hMode]; decide),
    up001Block_not001 _ _ _ (by rw [hMode]; decide),
    up005Block_not005 _ _ (by rw [hMode]; decide)]
  dsimp only
  have hchain := chainChannels st m
  have hno : ∀ c : String, c ≠ "MODE" → ¬(0 < m.params.length ∧ m.command = c ∧
      m.pfx.nick = st.nick) := by
    intro c hcne hc
    rw [hMode] at hc
    exact hcne hc.2.1.symm
  rw [if_neg (hno "JOIN" (by decide)), if_neg (hno "PART" (by decide)),
    if_neg (hno "QUIT" (by decide))] at hchain
  cases hM : upModeBlock (up901Block (up900Block (upQuitBlock (upPartBlock
      (upJoinBlock (upInjectBlock st m).1 m) m) m) m) m) m with
  | panic =>
    dsimp only
    exact Or.inl hchain
  | ok st10 =>
    dsimp only
    have hmc := upModeBlock_ok_channels _ _ _ hM
    rw [hchain] at hmc
    cases hA : upCapAckBlock (upCapLsBlock st10 m).1 (upCapLsBlock st10 m).2.1 with
    | panic =>
      dsimp only
      rw [(upCapLsBlock_fst_proj _ _).2.2.2.2.1]
      exact hmc
    | ok ack =>
      dsimp only
      rw [(upCapAckBlock_ok_proj _ _ _ hA).2.2.2.2,
        (upCapLsBlock_fst_proj _ _).2.2.2.2.1]
      exact hmc

/-- C6 counterexample: a parameter-less self-QUIT (legal IRC; the quit
message is optional) does not clear the channel map — the clearing block
at part_003:85 is guarded on the line having at least one parameter — so
`HasChannel` stays true afterwards, where the claim requires false for
every channel. -/
theorem c6_quit_counterexample :
    hasChannel (procUpstream (fun _ => none) {} c6qst
        { command := "QUIT", pfx := { nick := "me" } }).1.channels "#c" = true :=
  rfl

/-- C6 (amended): after the outbound processor sees a JOIN of channel #x
whose prefix nick is the session's own nick, `HasChannel` is true under
any letter-casing of the name; after a subsequent self-PART of #x it is
false; after a self-QUIT carrying at least one parameter (the quit
message) it is false for every channel — a parameter-less self-QUIT
leaves the map unchanged; and no upstream command other than a self-JOIN
adds a new entry to the channel map. -/
theorem c6_channel_tracking :
    (∀ (store : Msg → Option (List (String × String))) (upCfg : ConfigUpstream)
        (st : Client) (m : Msg) (q : String),
      m.command = "JOIN" → m.pfx.nick = st.nick → 0 < m.params.length →
      asciiLower q = asciiLower (m.getParam 0 "") →
      hasChannel (procUpstream store upCfg st m).1.channels q = true) ∧
    (∀ (store : Msg → Option (List (String × String))) (upCfg : ConfigUpstream)
        (st : Client) (m : Msg) (q : String),
      m.command = "PART" → m.pfx.nick = st.nick → 0 < m.params.length →
      asciiLower q = asciiLower (m.getParam 0 "") →
      hasChannel (procUpstream store upCfg st m).1.channels q = false) ∧
    (∀ (store : Msg → Option (List (String × String))) (upCfg : ConfigUpstream)
        (st : Client) (m : Msg) (q : String),
      m.command = "QUIT" → m.pfx.nick = st.nick → 0 < m.params.length →
      hasChannel (procUpstream store upCfg st m).1.channels q = false) ∧
    (∀ (store : Msg → Option (List (String × String))) (upCfg : ConfigUpstream)
        (st : Client) (m : Msg) (q : String),
      ¬(m.command = "JOIN" ∧ m.pfx.nick = st.nick) →
      hasChannel (procUpstream store upCfg st m).1.channels q = true →
      hasChannel st.channels q = true) := by
  refine ⟨?_, ?_, ?_, ?_⟩
  · intro store upCfg st m q hcmd hpfx hlen hq
    rw [procUpstream_channels store upCfg st m (by rw [hcmd]; decide)]
    rw [if_pos ⟨hlen, hcmd, hpfx⟩, hasChannel_setChannel]
    simp only [newStateChannel]
    rw [if_pos hq]
  · intro store upCfg st m q hcmd hpfx hlen hq
    rw [procUpstream_channels store upCfg st m (by rw [hcmd]; decide)]
    have hnJ : ¬(0 < m.params.length ∧ m.command = "JOIN" ∧ m.pfx.nick = st.nick) := by
      rintro ⟨_, hc, _⟩
      rw [hcmd] at hc
      exact absurd hc (by decide)
    rw [if_neg hnJ, if_pos ⟨hlen, hcmd, hpfx⟩, hasChannel_removeChannel, if_pos hq]
  · intro store upCfg st m q hcmd hpfx hlen
    rw [procUpstream_channels store upCfg st m (by rw [hcmd]; decide)]
    have hnJ : ¬(0 < m.params.length ∧ m.command = "JOIN" ∧ m.pfx.nick = st.nick) := by
      rintro ⟨_, hc, _⟩
      rw [hcmd] at hc
      exact absurd hc (by decide)
    have hnP : ¬(0 < m.params.length ∧ m.command = "PART" ∧ m.pfx.nick = st.nick) := by
      rintro ⟨_, hc, _⟩
      rw [hcmd] at hc
      exact absurd hc (by decide)
    rw [if_neg hnJ, if_neg hnP, if_pos ⟨hlen, hcmd, hpfx⟩, hasChannel_clearChannels]
  · intro store upCfg st m q hn hq
    by_cases hM : m.command = "MODE"
    · rcases procUpstream_channels_mode store upCfg st m hM with hid | ⟨newch, hname, hsome, heq⟩
      · rwa [hid] at hq
      · rw [heq, hasChannel_setChannel] at hq
        by_cases hql : asciiLower q = asciiLower newch.name
        · unfold hasChannel
          rw [hql, hname]
          unfold getChannel at hsome
          exact hsome
        · rwa [if_neg hql] at hq
    · rw [procUpstream_channels store upCfg st m hM] at hq
      by_cases h1 : 0 < m.params.length ∧ m.command = "JOIN" ∧ m.pfx.nick = st.nick
      · exact absurd ⟨h1.2.1, h1.2.2⟩ hn
      · rw [if_neg h1] at hq
        by_cases h2 : 0 < m.params.length ∧ m.command = "PART" ∧ m.pfx.nick = st.nick
        · rw [if_pos h2, hasChannel_removeChannel] at hq
          by_cases h4 : asciiLower q = asciiLower (m.getParam 0 "")
          · rw [if_pos h4] at hq
            exact absurd hq (by decide)
          · rwa [if_neg h4] at hq
        · rw [if_neg h2] at hq
          by_cases h3 : 0 < m.params.length ∧ m.command = "QUIT" ∧ m.pfx.nick = st.nick
          · rw [if_pos h3, hasChannel_clearChannels] at hq
            exact absurd hq (by decide)
          · rwa [if_neg h3] at hq

/-- Witness for C6 at concrete inputs: a self-JOIN of #chan makes
HasChannel("#CHAN") true; a self-PART makes it false; a self-QUIT clears
#held; PRIVMSG adds nothing. -/
theorem c6_channel_tracking_witness :
    hasChannel (procUpstream (fun _ => none) {} { nick := "alice" }
      { command := "JOIN", params := ["#chan"], pfx := { nick := "alice" } }).1.channels
      "#CHAN" = true ∧
    hasChannel (procUpstream (fun _ => none) {}
      { nick := "alice",
        channels := fun k => if k = "#chan" then
          some { name := "#chan", modes := fun _ => none, joined := 0 } else none }
      { command := "PART", params := ["#chan"], pfx := { nick := "alice" } }).1.channels
      "#chan" = false ∧
    hasChannel (procUpstream (fun _ => none) {}
      { nick := "alice",
        channels := fun k => if k = "#held" then
          some { name := "#held", modes := fun _ => none, joined := 0 } else none }
      { command := "QUIT", params := ["bye"], pfx := { nick := "alice" } }).1.channels
      "#held" = false ∧
    (hasChannel (procUpstream (fun _ => none) {}
      { nick := "alice",
        channels := fun k => if k = "#x" then
          some { name := "#x", modes := fun _ => none, joined := 0 } else none }
      { command := "PRIVMSG", params := ["bob", "hi"], pfx := { nick := "bob" } }).1.channels
      "#x" = true →
      hasChannel (fun k => if k = "#x" then
        some { name := "#x", modes := fun _ => none, joined := 0 } else none) "#x" = true) := by
  refine ⟨?_, ?_, ?_, ?_⟩
  · exact c6_channel_tracking.1 _ _ _ _ _ rfl rfl (by decide) (by decide)
  · exact c6_channel_tracking.2.1 _ _ _ _ _ rfl rfl (by decide) (by decide)
  · exact c6_channel_tracking.2.2.1 _ _ _ _ _ rfl rfl (by decide)
  · exact c6_channel_tracking.2.2.2 _ _ _ _ _ (by simp)

/-- Claim C9, evaluated at the failing input: processing
`:x MODE #c +o me` against a session whose tracked #c carries mode "v"
produces a #c entry whose modes are only {"o"}; the earlier "v" is wiped,
because the handler replaces the tracked entry with a fresh
`NewStateChannel` before applying the mode characters. -/
theorem c9_mode_wipes_earlier_modes :
    ((procUpstream (fun _ => none) {}
        { nick := "me",
          channels := fun k => if k = "#c" then
            some { name := "#c", modes := fun mk => if mk = "v" then some "" else none,
                   joined := 0 }
          else none }
        { command := "MODE", params := ["#c", "+o", "me"], pfx := { nick := "x" } }).1.channels
          "#c").map (fun ch => (ch.modes "v", ch.modes "o")) = some (none, some "") := by
  rfl

/-- Claim C4: a fresh session's receive limiter is `rate.Inf` with burst 1
and stays untouched by any upstream line that is not a 001; a 001 replaces
it with rate = configured throttle and burst = 1; and the throttled
channel forwards every accepted line in order with no loss, closing its
output exactly when its input closes — regardless of the limiter used at
each step. -/
theorem c4_throttled_channel :
    (∀ rv : Bool, (newClient rv).limiter = { limit := RLimit.inf, burst := 1 }) ∧
    (∀ (store : Msg → Option (List (String × String))) (upCfg : ConfigUpstream)
        (st : Client) (msgs : List Msg),
      (∀ m ∈ msgs, ¬(m.command = "001" ∧ 0 < m.params.length)) →
      (upRunState store upCfg st msgs).limiter = st.limiter) ∧
    (∀ (store : Msg → Option (List (String × String))) (upCfg : ConfigUpstream)
        (st : Client) (m : Msg),
      m.command = "001" → 0 < m.params.length →
      (procUpstream store upCfg st m).1.limiter =
        { limit := RLimit.lim upCfg.throttle, burst := 1 }) ∧
    (∀ (L : Type) (wait : L → L) (lim : L) (inputs : List String) (closed : Bool),
      (throttledRun wait lim inputs closed).1 = inputs ∧
      (throttledRun wait lim inputs closed).2.1 = closed) := by
  refine ⟨fun _ => rfl, ?_, ?_, ?_⟩
  · intro store upCfg st msgs
    induction msgs generalizing st with
    | nil => intro _; rfl
    | cons m rest ih =>
      intro h
      have hstep : upRunState store upCfg st (m :: rest) =
          upRunState store upCfg (procUpstream store upCfg st m).1 rest := rfl
      rw [hstep, ih _ (fun x hx => h x (List.mem_cons_of_mem m hx))]
      have hs := (procUpstream_scalars store upCfg st m).2.2.1
      rw [hs, if_neg]
      intro hc
      exact h m (List.mem_cons_self m rest) ⟨hc.2, hc.1⟩
  · intro store upCfg st m hcmd hlen
    have hs := (procUpstream_scalars store upCfg st m).2.2.1
    rw [hs, if_pos ⟨hlen, hcmd⟩]
  · intro L wait lim inputs closed
    induction inputs generalizing lim with
    | nil => exact ⟨rfl, rfl⟩
    | cons x rest ih =>
      obtain ⟨h1, h2⟩ := ih (wait lim)
      exact ⟨by rw [throttledRun, h1], by rw [throttledRun, h2]⟩

/-- Witness for C4: a PING stream leaves a fresh client's limiter at Inf;
a concrete 001 installs (throttle, 1); a two-line stream is forwarded
intact and the close propagates. -/
theorem c4_throttled_channel_witness :
    (upRunState (fun _ => none) { throttle := 2 } (newClient false)
      [{ command := "PING", params := ["x"] }]).limiter =
        { limit := RLimit.inf, burst := 1 } ∧
    (procUpstream (fun _ => none) { throttle := 2 } (newClient false)
      { command := "001", params := ["alice", "Welcome"],
        pfx := { nick := "srv" } }).1.limiter =
        { limit := RLimit.lim 2, burst := 1 } ∧
    (throttledRun (fun n => n + 1) (0 : Nat) ["NICK a", "USER a 0 * :a"] true).1 =
      ["NICK a", "USER a 0 * :a"] ∧
    (throttledRun (fun n => n + 1) (0 : Nat) ["NICK a", "USER a 0 * :a"] true).2.1 = true := by
  refine ⟨?_, ?_, ?_, ?_⟩
  · have := c4_throttled_channel.2.1 (fun _ => none) { throttle := 2 } (newClient false)
      [{ command := "PING", params := ["x"] }] (by decide)
    rw [this]
    rfl
  · exact c4_throttled_channel.2.2.1 (fun _ => none) { throttle := 2 } (newClient false)
      { command := "001", params := ["alice", "Welcome"], pfx := { nick := "srv" } }
      rfl (by decide)
  · exact (c4_throttled_channel.2.2.2 Nat (fun n => n + 1) 0
      ["NICK a", "USER a 0 * :a"] true).1
  · exact (c4_throttled_channel.2.2.2 Nat (fun n => n + 1) 0
      ["NICK a", "USER a 0 * :a"] true).2

theorem upRunState_flags (store : Msg → Option (List (String × String)))
    (upCfg : ConfigUpstream) :
    ∀ (msgs : List Msg), wf005 msgs → ∀ st : Client,
      (upRunState store upCfg st msgs).isReceived = (st.isReceived || seen005 msgs) ∧
      (upRunState store upCfg st msgs).isInjected =
        (st.isInjected || injAfter st.isReceived msgs) := by
  intro msgs
  induction msgs with
  | nil =>
    intro _ st
    simp [upRunState, seen005, injAfter]
  | cons m rest ih =>
    intro hwf st
    have hwfm := hwf m (List.mem_cons_self _ _)
    have hwfr : wf005 rest := fun x hx hc => hwf x (List.mem_cons_of_mem _ hx) hc
    obtain ⟨s1, s2, _, _⟩ := procUpstream_scalars store upCfg st m
    have hstep : upRunState store upCfg st (m :: rest) =
        upRunState store upCfg (procUpstream store upCfg st m).1 rest := rfl
    obtain ⟨r1, r2⟩ := ih hwfr (procUpstream store upCfg st m).1
    rw [hstep]
    have hb : (m.command == "005") = (decide (m.command = "005")) := by
      by_cases hc : m.command = "005" <;> simp [hc]
    constructor
    · rw [r1, s1]
      by_cases hc : m.command = "005"
      · rw [if_pos ⟨hc, hwfm hc⟩]
        simp [seen005, hc]
      · rw [if_neg (fun hcc : m.command = "005" ∧ 2 ≤ m.params.length => hc hcc.1)]
        simp [seen005, hb, hc, Bool.or_assoc]
    · rw [r2, s2, s1]
      by_cases hc : m.command = "005"
      · rw [if_neg (fun hcc : st.isReceived = true ∧ m.command ≠ "005" => hcc.2 hc),
          if_pos ⟨hc, hwfm hc⟩]
        simp [injAfter, hc]
      · rw [if_neg (fun hcc : m.command = "005" ∧ 2 ≤ m.params.length => hc hcc.1)]
        by_cases hr : st.isReceived = true
        · rw [if_pos ⟨hr, hc⟩]
          simp [injAfter, hc, hr]
        · rw [if_neg (fun hcc : st.isReceived = true ∧ m.command ≠ "005" => hr hcc.1)]
          have hrf : st.isReceived = false := by
            cases hx : st.isReceived
            · rfl
            · exact absurd hx hr
          simp [injAfter, hc, hrf, Bool.or_assoc]

theorem procUpstream_emits_empty_of_injected (store : Msg → Option (List (String × String)))
    (upCfg : ConfigUpstream) (st : Client) (m : Msg) (h : st.isInjected = true) :
    (procUpstream store upCfg st m).2.1 = [] := by
  rw [procUpstream_emits]
  rw [if_neg]
  rintro ⟨_, h2, _⟩
  rw [h] at h2
  exact absurd h2 (by decide)

theorem procUpstream_injected_mono (store : Msg → Option (List (String × String)))
    (upCfg : ConfigUpstream) (st : Client) (m : Msg) (h : st.isInjected = true) :
    (procUpstream store upCfg st m).1.isInjected = true := by
  rw [(procUpstream_scalars store upCfg st m).2.1]
  split
  · rfl
  · exact h

theorem procUpstream_injected_after_emit (store : Msg → Option (List (String × String)))
    (upCfg : ConfigUpstream) (st : Client) (m : Msg)
    (h : (procUpstream store upCfg st m).2.1 ≠ []) :
    (procUpstream store upCfg st m).1.isInjected = true := by
  rw [procUpstream_emits] at h
  by_cases hc : st.isReceived = true ∧ st.isInjected = false ∧ m.command ≠ "005" ∧
      hasToken st.isTokens "EXTJWT" = false
  · rw [(procUpstream_scalars store upCfg st m).2.1, if_pos ⟨hc.1, hc.2.2.1⟩]
  · rw [if_neg hc] at h
    exact absurd rfl h

theorem upSynthCount_zero_of_injected (store : Msg → Option (List (String × String)))
    (upCfg : ConfigUpstream) :
    ∀ (msgs : List Msg) (st : Client), st.isInjected = true →
      upSynthCount store upCfg st msgs = 0 := by
  intro msgs
  induction msgs with
  | nil => intro st _; rfl
  | cons m rest ih =>
    intro st h
    have h1 := procUpstream_emits_empty_of_injected store upCfg st m h
    have h2 := ih (procUpstream store upCfg st m).1 (procUpstream_injected_mono store upCfg st m h)
    simp [upSynthCount, h1, h2]

theorem upSynthCount_le_one (store : Msg → Option (List (String × String)))
    (upCfg : ConfigUpstream) :
    ∀ (msgs : List Msg) (st : Client), upSynthCount store upCfg st msgs ≤ 1 := by
  intro msgs
  induction msgs with
  | nil => intro st; simp [upSynthCount]
  | cons m rest ih =>
    intro st
    by_cases he : (procUpstream store upCfg st m).2.1 = []
    · have := ih (procUpstream store upCfg st m).1
      simp [upSynthCount, he]
      exact this
    · have hinj := procUpstream_injected_after_emit store upCfg st m he
      have hz := upSynthCount_zero_of_injected store upCfg rest _ hinj
      have hlen : (procUpstream store upCfg st m).2.1.length ≤ 1 := by
        rw [procUpstream_emits]
        split <;> simp
      simp only [upSynthCount, hz]
      omega

/-- Claim C3: over any upstream stream processed by a session whose
ISUPPORT container starts fresh (005 lines well-formed), the synthetic 005
is emitted at most once; a step emits it exactly when the prefix already
contains a 005, no non-005 has yet followed one, the current line is not a
005, and the accumulated tokens lack EXTJWT; when emitted it is a 005
carrying the token EXTJWT=1 and it is delivered strictly before the line
being processed; the Injected flag after any prefix equals the spec-side
marker, so it becomes true exactly at that step; and when the server
already advertised EXTJWT, the step emits nothing and instead disables the
session's extJwt feature. -/
theorem c3_isupport_injection :
    (∀ (store : Msg → Option (List (String × String))) (upCfg : ConfigUpstream)
        (st : Client) (msgs : List Msg), upSynthCount store upCfg st msgs ≤ 1) ∧
    (∀ (store : Msg → Option (List (String × String))) (upCfg : ConfigUpstream)
        (st0 : Client), st0.isReceived = false → st0.isInjected = false →
      ∀ pre : List Msg, wf005 pre → ∀ m : Msg, (m.command = "005" → 2 ≤ m.params.length) →
      (((procUpstream store upCfg (upRunState store upCfg st0 pre) m).2.1 ≠ []) ↔
        (seen005 pre = true ∧ injAfter false pre = false ∧ m.command ≠ "005" ∧
          hasToken (upRunState store upCfg st0 pre).isTokens "EXTJWT" = false)) ∧
      (∀ e ∈ (procUpstream store upCfg (upRunState store upCfg st0 pre) m).2.1,
        ∃ synth, e = Emit.dataMsg synth ∧ synth.command = "005" ∧
          "EXTJWT=1" ∈ synth.params ∧
          ∃ tl, (handleLineFromUpstream store upCfg (upRunState store upCfg st0 pre) m).2 =
            Emit.dataMsg synth :: tl) ∧
      ((upRunState store upCfg st0 (pre ++ [m])).isInjected = injAfter false (pre ++ [m])) ∧
      ((seen005 pre = true ∧ injAfter false pre = false ∧ m.command ≠ "005" ∧
          hasToken (upRunState store upCfg st0 pre).isTokens "EXTJWT" = true) →
        (procUpstream store upCfg (upRunState store upCfg st0 pre) m).2.1 = [] ∧
        (procUpstream store upCfg (upRunState store upCfg st0 pre) m).1.featExtJwt = false)) := by
  constructor
  · intro store upCfg st msgs
    exact upSynthCount_le_one store upCfg msgs st
  · intro store upCfg st0 h0r h0i pre hwf m hm
    obtain ⟨f1, f2⟩ := upRunState_flags store upCfg pre hwf st0
    rw [h0r] at f1
    rw [h0r, h0i] at f2
    simp only [Bool.false_or] at f1 f2
    refine ⟨?_, ?_, ?_, ?_⟩
    · rw [procUpstream_emits]
      simp only [f1, f2]
      split_ifs with h
      · constructor
        · intro _
          exact ⟨h.1, h.2.1, h.2.2.1, h.2.2.2⟩
        · intro _
          simp
      · constructor
        · intro hne
          exact absurd rfl hne
        · intro hc
          exact absurd ⟨hc.1, hc.2.1, hc.2.2.1, hc.2.2.2⟩ h
    · intro e he
      rw [procUpstream_emits] at he
      split_ifs at he with h
      · simp only [List.mem_singleton] at he
        subst he
        refine ⟨_, rfl, rfl, by simp, ?_⟩
        unfold handleLineFromUpstream
        dsimp only
        rw [procUpstream_emits, if_pos h]
        exact ⟨_, rfl⟩
      · simp at he
    · have hwf2 : wf005 (pre ++ [m]) := by
        intro x hx hc
        rcases List.mem_append.mp hx with hx1 | hx2
        · exact hwf x hx1 hc
        · rw [List.mem_singleton.mp hx2]
          exact hm (by rw [← List.mem_singleton.mp hx2]; exact hc)
      obtain ⟨_, g2⟩ := upRunState_flags store upCfg (pre ++ [m]) hwf2 st0
      rw [h0r, h0i] at g2
      simpa using g2
    · intro hcon
      constructor
      · rw [procUpstream_emits]
        rw [if_neg]
        rintro ⟨_, _, _, h4⟩
        rw [hcon.2.2.2] at h4
        exact absurd h4 (by decide)
      · rw [(procUpstream_scalars store upCfg _ m).2.2.2]
        rw [if_pos ⟨by rw [f1]; exact hcon.1, by rw [f2]; exact hcon.2.1,
          hcon.2.2.1, hcon.2.2.2⟩]

/-- Claim C8, evaluated at the failing input: with the client stream
closing while the state is `connected` (the claim's scenario), `seenQuit`
false and `sendQuitOnClientClose` = "Bye", the code injects no QUIT
upstream — its guard tests for state `ending`, not `connected`, where it
does inject one; additionally a bare "QUIT" line (no trailing space) does
not set `seenQuit`. -/
theorem c8_quit_on_close_eval :
    (handleRecvClosed { sendQuitOnClientClose := "Bye" } (fun s => s)
      { state := ClientState.connected, upstreamConnected := true, username := "u" }).2 =
      none ∧
    (handleRecvClosed { sendQuitOnClientClose := "Bye" } (fun s => s)
      { state := ClientState.ending, upstreamConnected := true, username := "u" }).2 =
      some "QUIT :Bye\r\n" ∧
    (processLineToUpstream (fun s => s)
      { state := ClientState.connected, upstreamConnected := true } "QUIT").1.seenQuit =
      false := by
  refine ⟨rfl, by decide, rfl⟩

theorem c3_isupport_injection_witness :
    (procUpstream (fun _ => none) {} (upRunState (fun _ => none) {} (newClient false) c3pre)
        c3ping).2.1 ≠ [] ∧
    (upRunState (fun _ => none) {} (newClient false) (c3pre ++ [c3ping])).isInjected =
      injAfter false (c3pre ++ [c3ping]) := by
  have h := c3_isupport_injection.2 (fun _ => none) {} (newClient false) rfl rfl
    c3pre (by unfold wf005 c3pre; decide) c3ping (by decide)
  exact ⟨h.1.mpr (by decide), h.2.2.1⟩

theorem strMk_data (s : String) : String.mk s.data = s := by
  cases s
  rfl

theorem splitCh_ne_nil (sep : Char) (l : List Char) : splitCh sep l ≠ [] := by
  cases l with
  | nil => simp [splitCh]
  | cons c rest =>
    simp only [splitCh]
    cases h : splitCh sep rest with
    | nil => simp
    | cons cur done => by_cases hcs : c = sep <;> simp [hcs]

theorem splitCh_no_sep (sep : Char) (l : List Char) (h : sep ∉ l) :
    splitCh sep l = [l] := by
  induction l with
  | nil => rfl
  | cons c rest ih =>
    have hc : c ≠ sep := fun hcc => h (by rw [hcc]; exact List.mem_cons_self _ _)
    have hr : sep ∉ rest := fun hm => h (List.mem_cons_of_mem _ hm)
    simp only [splitCh]
    rw [ih hr]
    simp [hc]

theorem splitCh_append (sep : Char) (a b : List Char) (h : sep ∉ a) :
    splitCh sep (a ++ sep :: b) = a :: splitCh sep b := by
  induction a with
  | nil =>
    simp only [List.nil_append, splitCh]
    cases hb : splitCh sep b with
    | nil => exact absurd hb (splitCh_ne_nil sep b)
    | cons cur done => simp
  | cons c rest ih =>
    have hc : c ≠ sep := fun hcc => h (by rw [hcc]; exact List.mem_cons_self _ _)
    have hr : sep ∉ rest := fun hm => h (List.mem_cons_of_mem _ hm)
    simp only [List.cons_append, splitCh, List.append_eq]
    rw [ih hr]
    simp [hc]

theorem joinChars_splitCh (sep : Char) (l : List Char) :
    joinChars sep (splitCh sep l) = l := by
  induction l with
  | nil => rfl
  | cons c rest ih =>
    simp only [splitCh]
    cases h : splitCh sep rest with
    | nil => exact absurd h (splitCh_ne_nil sep rest)
    | cons cur done =>
      dsimp only
      rw [h] at ih
      by_cases hc : c = sep
      · rw [if_pos hc]
        subst hc
        cases done with
        | nil =>
          simp only [joinChars] at ih ⊢
          simp [ih]
        | cons d ds =>
          simp only [joinChars] at ih ⊢
          simp [ih]
      · rw [if_neg hc]
        cases done with
        | nil =>
          simp only [joinChars] at ih ⊢
          rw [ih]
        | cons d ds =>
          simp only [joinChars] at ih ⊢
          rw [List.cons_append, ih]

theorem not_mem_of_containsSub_single (c : Char) (l : List Char)
    (h : listContainsSub [c] l = false) : c ∉ l := by
  induction l with
  | nil => simp
  | cons x rest ih =>
    unfold listContainsSub at h
    intro hm
    rcases List.mem_cons.mp hm with h1 | h2
    · subst h1
      simp [listStartsWith] at h
    · by_cases hx : listStartsWith (x :: rest) [c] = true
      · rw [if_pos hx] at h
        exact absurd h (by decide)
      · rw [if_neg hx] at h
        exact ih h h2

theorem splitCh_cons_ne (sep c : Char) (hc : c ≠ sep) (l : List Char) :
    ∃ tok toks, splitCh sep l = tok :: toks ∧
      splitCh sep (c :: l) = (c :: tok) :: toks := by
  cases h : splitCh sep l with
  | nil => exact absurd h (splitCh_ne_nil sep l)
  | cons tok toks =>
    refine ⟨tok, toks, rfl, ?_⟩
    simp only [splitCh, h]
    rw [if_neg hc]

theorem ircParamsAux_cons (t : List Char) (rest : List (List Char))
    (h : listStartsWith t [':'] = false) :
    ircParamsAux (t :: rest) = String.mk t :: ircParamsAux rest := by
  simp only [ircParamsAux]
  rw [if_neg (by simp [h])]

theorem ircParams_trailing (t : String)
    (hc : listStartsWith t.data [':'] = false) :
    ircParams (if strContains t " " = true then ":" ++ t else t) = [t] := by
  by_cases hsp : strContains t " " = true
  · rw [if_pos hsp]
    unfold ircParams
    have hd : ((":" : String) ++ t).data = ':' :: t.data := by
      rw [String.data_append]
      rfl
    rw [hd]
    obtain ⟨tok, toks, h1, h2⟩ := splitCh_cons_ne ' ' ':' (by decide) t.data
    rw [h2]
    unfold ircParamsAux
    rw [if_pos (by simp [listStartsWith] : listStartsWith (':' :: tok) [':'] = true)]
    simp only [List.drop_succ_cons, List.drop_zero]
    rw [← h1, joinChars_splitCh, strMk_data]
  · rw [if_neg hsp]
    unfold ircParams
    have hb : listContainsSub [' '] t.data = false := by
      have hb0 : strContains t " " = false := by simpa using hsp
      exact hb0
    have hns : ' ' ∉ t.data := not_mem_of_containsSub_single _ _ hb
    rw [splitCh_no_sep _ _ hns]
    unfold ircParamsAux
    rw [if_neg (by simp [hc])]
    simp [ircParamsAux, strMk_data]

/-- C5: whenever `upstreamConfig.webircPassword` is non-empty, exactly one
WEBIRC line is written upstream; parsed back under the codec grammar its
parameter section yields exactly the five parameters password, gateway
name, client hostname, ip and tags; the gateway name defaults to
"webircgateway" unless overridden by configuration; the ip parameter is
prefixed with '0' when the address begins with ':'; and the tags
parameter is prefixed with ':' exactly when the serialized tags contain
a space.  The auxiliary hypotheses say the first four parameters are
space-free and not ':'-led, as IRC parameters must be. -/
theorem c5_webirc_format
    (cfg : Config) (upCfg : ConfigUpstream) (addr rhost nick : String)
    (tags : List (String × String))
    (hpw : upCfg.webircPassword ≠ "")
    (h1s : ' ' ∉ upCfg.webircPassword.data)
    (h1c : listStartsWith upCfg.webircPassword.data [':'] = false)
    (h2s : ' ' ∉ (webircGatewayName cfg upCfg).data)
    (h2c : listStartsWith (webircGatewayName cfg upCfg).data [':'] = false)
    (h3s : ' ' ∉ (webircClientHostname cfg addr rhost nick).data)
    (h3c : listStartsWith (webircClientHostname cfg addr rhost nick).data [':'] = false)
    (h4s : ' ' ∉ addr.data)
    (htc : listStartsWith (buildWebircTags tags).data [':'] = false) :
    writeWebircLines cfg upCfg addr rhost nick tags =
      ["WEBIRC " ++ upCfg.webircPassword ++ " " ++ webircGatewayName cfg upCfg ++ " " ++
        webircClientHostname cfg addr rhost nick ++ " " ++ webircAddrParam addr ++ " " ++
        webircTagsParam tags ++ "\n"] ∧
    ircParams (upCfg.webircPassword ++ " " ++ webircGatewayName cfg upCfg ++ " " ++
        webircClientHostname cfg addr rhost nick ++ " " ++ webircAddrParam addr ++ " " ++
        webircTagsParam tags) =
      [upCfg.webircPassword, webircGatewayName cfg upCfg,
        webircClientHostname cfg addr rhost nick, webircAddrParam addr,
        buildWebircTags tags] ∧
    (cfg.gatewayName = "" → upCfg.gatewayName = "" →
      webircGatewayName cfg upCfg = "webircgateway") ∧
    (upCfg.gatewayName ≠ "" → webircGatewayName cfg upCfg = upCfg.gatewayName) ∧
    (strStartsWith addr ":" = true → webircAddrParam addr = "0" ++ addr) ∧
    (strStartsWith addr ":" = false → webircAddrParam addr = addr) ∧
    (strContains (buildWebircTags tags) " " = true →
      webircTagsParam tags = ":" ++ buildWebircTags tags) ∧
    (strContains (buildWebircTags tags) " " = false →
      webircTagsParam tags = buildWebircTags tags) := by
  have h4s' : ' ' ∉ (webircAddrParam addr).data := by
    unfold webircAddrParam
    by_cases h : strStartsWith addr ":" = true
    · rw [if_pos h, String.data_append]
      intro hm
      rcases List.mem_append.mp hm with hA | hB
      · have h0 : (("0" : String)).data = ['0'] := rfl
        rw [h0] at hA
        simp at hA
      · exact h4s hB
    · rw [if_neg h]
      exact h4s
  have h4c : listStartsWith (webircAddrParam addr).data [':'] = false := by
    unfold webircAddrParam
    by_cases h : strStartsWith addr ":" = true
    · rw [if_pos h]
      have h0 : (("0" : String) ++ addr).data = '0' :: addr.data := by
        rw [String.data_append]
        rfl
      rw [h0]
      simp [listStartsWith]
    · rw [if_neg h]
      have hb : strStartsWith addr ":" = false := by simpa using h
      exact hb
  have hw : webircTagsParam tags =
      if strContains (buildWebircTags tags) " " = true then
        ":" ++ buildWebircTags tags else buildWebircTags tags := rfl
  refine ⟨?_, ?_, ?_, ?_, ?_, ?_, ?_, ?_⟩
  · unfold writeWebircLines
    rw [if_neg hpw]
  · unfold ircParams
    have hsd : (" " : String).data = [' '] := rfl
    have hd : (upCfg.webircPassword ++ " " ++ webircGatewayName cfg upCfg ++ " " ++
        webircClientHostname cfg addr rhost nick ++ " " ++ webircAddrParam addr ++ " " ++
        webircTagsParam tags).data =
        upCfg.webircPassword.data ++ ' ' :: ((webircGatewayName cfg upCfg).data ++ ' ' ::
          ((webircClientHostname cfg addr rhost nick).data ++ ' ' ::
            ((webircAddrParam addr).data ++ ' ' :: (webircTagsParam tags).data))) := by
      simp [String.data_append, hsd]
    rw [hd]
    rw [splitCh_append _ _ _ h1s, splitCh_append _ _ _ h2s,
        splitCh_append _ _ _ h3s, splitCh_append _ _ _ h4s']
    rw [ircParamsAux_cons _ _ h1c, ircParamsAux_cons _ _ h2c,
        ircParamsAux_cons _ _ h3c, ircParamsAux_cons _ _ h4c]
    have htr := ircParams_trailing (buildWebircTags tags) htc
    unfold ircParams at htr
    rw [hw, htr]
  · intro hg1 hg2
    unfold webircGatewayName
    simp [hg1, hg2]
  · intro h
    unfold webircGatewayName
    rw [if_pos h]
  · intro h
    unfold webircAddrParam
    rw [if_pos h]
  · intro h
    unfold webircAddrParam
    rw [if_neg (by simp [h])]
  · intro h
    rw [hw, if_pos h]
  · intro h
    rw [hw, if_neg (by simp [h])]

theorem c5_webirc_format_witness :
    writeWebircLines c5cfg c5up "::1" "h.example" "n" [("secure", "")] =
      ["WEBIRC " ++ c5up.webircPassword ++ " " ++ webircGatewayName c5cfg c5up ++ " " ++
        webircClientHostname c5cfg "::1" "h.example" "n" ++ " " ++ webircAddrParam "::1" ++
        " " ++ webircTagsParam [("secure", "")] ++ "\n"] ∧
    ircParams (c5up.webircPassword ++ " " ++ webircGatewayName c5cfg c5up ++ " " ++
        webircClientHostname c5cfg "::1" "h.example" "n" ++ " " ++ webircAddrParam "::1" ++
        " " ++ webircTagsParam [("secure", "")]) =
      [c5up.webircPassword, webircGatewayName c5cfg c5up,
        webircClientHostname c5cfg "::1" "h.example" "n", webircAddrParam "::1",
        buildWebircTags [("secure", "")]] ∧
    (c5cfg.gatewayName = "" → c5up.gatewayName = "" →
      webircGatewayName c5cfg c5up = "webircgateway") ∧
    (c5up.gatewayName ≠ "" → webircGatewayName c5cfg c5up = c5up.gatewayName) ∧
    (strStartsWith "::1" ":" = true → webircAddrParam "::1" = "0" ++ "::1") ∧
    (strStartsWith "::1" ":" = false → webircAddrParam "::1" = "::1") ∧
    (strContains (buildWebircTags [("secure", "")]) " " = true →
      webircTagsParam [("secure", "")] = ":" ++ buildWebircTags [("secure", "")]) ∧
    (strContains (buildWebircTags [("secure", "")]) " " = false →
      webircTagsParam [("secure", "")] = buildWebircTags [("secure", "")]) :=
  c5_webirc_format c5cfg c5up "::1" "h.example" "n" [("secure", "")]
    (by decide) (by decide) (by decide) (by decide) (by decide)
    (by decide) (by decide) (by decide) (by decide)

/-! ### C2: the connect-if-ready attempt and the single upstream dial -/

theorem maybeConnectUpstream_eq (s : Client) :
    maybeConnectUpstream s =
      if s.upstreamStarted = false ∧ s.username ≠ "" ∧ s.nick ≠ "" ∧
          (s.requiresVerification = false ∨ s.verified = true) then
        { s with upstreamStarted := true, dials := s.dials + 1 }
      else s := by
  unfold maybeConnectUpstream connectUpstream
  by_cases h1 : s.upstreamStarted = false <;>
    by_cases h2 : s.username = "" <;>
      by_cases h3 : s.nick = "" <;>
        by_cases h4 : s.requiresVerification = true <;>
          by_cases h5 : s.verified = false <;>
            simp_all

theorem dialStep_trans (a b c : Client) (h1 : dialStep a b) (h2 : dialStep b c) :
    dialStep a c := by
  rcases h1 with ⟨u1, d1⟩ | ⟨u1, u2, d1⟩ <;> rcases h2 with ⟨u3, d3⟩ | ⟨u3, u4, d3⟩
  · exact Or.inl ⟨u3.trans u1, d3.trans d1⟩
  · exact Or.inr ⟨by rw [← u1]; exact u3, u4, by rw [d3, d1]⟩
  · exact Or.inr ⟨u1, u3.trans u2, d3.trans d1⟩
  · rw [u2] at u3; exact absurd u3 (by decide)

theorem dialStep_maybeConnect (s : Client) : dialStep s (maybeConnectUpstream s) := by
  rw [maybeConnectUpstream_eq]
  split_ifs with h
  · exact Or.inr ⟨h.1, rfl, rfl⟩
  · exact Or.inl ⟨rfl, rfl⟩

theorem nickSection_dialStep (st : Client) (m : Msg) : dialStep st (nickSection st m) := by
  unfold nickSection
  dsimp only
  split_ifs <;>
    first
      | exact dialStep_trans _ _ _ (Or.inl ⟨rfl, rfl⟩) (dialStep_maybeConnect _)
      | exact Or.inl ⟨rfl, rfl⟩

theorem userSection_dialStep (cfg : Config) (st : Client) (m : Msg) :
    dialStep st (userSection cfg st m).1 := by
  unfold userSection
  dsimp only
  split_ifs <;>
    first
      | exact dialStep_trans _ _ _ (Or.inl ⟨rfl, rfl⟩) (dialStep_maybeConnect _)
      | exact Or.inl ⟨rfl, rfl⟩

theorem captchaBlock_dialStep (v : String → Bool) (st : Client) (m : Msg) :
    dialStep st (captchaBlock v st m).1 := by
  unfold captchaBlock
  dsimp only
  split_ifs <;>
    first
      | exact dialStep_trans _ _ _ (Or.inl ⟨rfl, rfl⟩) (dialStep_maybeConnect _)
      | exact Or.inl ⟨rfl, rfl⟩

theorem hostBlock_up (cfg : Config) (st : Client) (m : Msg) :
    (hostBlock cfg st m).1.upstreamStarted = st.upstreamStarted := by
  unfold hostBlock
  dsimp only
  repeat' split
  all_goals rfl

theorem hostBlock_dials (cfg : Config) (st : Client) (m : Msg) :
    (hostBlock cfg st m).1.dials = st.dials := by
  unfold hostBlock
  dsimp only
  repeat' split
  all_goals rfl

theorem capReqBlock_up (st : Client) (m : Msg) :
    (capReqBlock st m).1.upstreamStarted = st.upstreamStarted := by
  unfold capReqBlock
  dsimp only
  repeat' split
  all_goals rfl

theorem capReqBlock_dials (st : Client) (m : Msg) :
    (capReqBlock st m).1.dials = st.dials := by
  unfold capReqBlock
  dsimp only
  repeat' split
  all_goals rfl

theorem extjwtBlock_fst (tok : Option String) (st : Client) (m : Msg) :
    (extjwtBlock tok st m).1 = st := by
  unfold extjwtBlock
  dsimp only
  repeat' split
  all_goals rfl

theorem capSection_up (st : Client) (m : Msg) :
    (capSection st m).1.upstreamStarted = st.upstreamStarted := by
  unfold capSection
  dsimp only
  split_ifs <;> simp [capReqBlock_up]

theorem capSection_dials (st : Client) (m : Msg) :
    (capSection st m).1.dials = st.dials := by
  unfold capSection
  dsimp only
  split_ifs <;> simp [capReqBlock_dials]

theorem tagSection_fst (tok : Option String) (st : Client) (m : Msg)
    (emits : List Emit) (raw : Bool) : (tagSection tok st m emits raw).1 = st := by
  unfold tagSection
  dsimp only
  split_ifs <;> simp [extjwtBlock_fst]

theorem procClientRest_up (cfg : Config) (k : String → Bool) (tok : Option String)
    (st : Client) (m : Msg) (raw : Bool) :
    (procClientRest cfg k tok st m raw).1.upstreamStarted = st.upstreamStarted := by
  unfold procClientRest
  dsimp only
  split_ifs
  · rfl
  · rfl
  · exact hostBlock_up cfg st m
  · rcases h : (capSection st m).2.2 with _ | mr <;>
      simp [h, capSection_up, tagSection_fst]

theorem procClientRest_dials (cfg : Config) (k : String → Bool) (tok : Option String)
    (st : Client) (m : Msg) (raw : Bool) :
    (procClientRest cfg k tok st m raw).1.dials = st.dials := by
  unfold procClientRest
  dsimp only
  split_ifs
  · rfl
  · rfl
  · exact hostBlock_dials cfg st m
  · rcases h : (capSection st m).2.2 with _ | mr <;>
      simp [h, capSection_dials, tagSection_fst]

theorem procClient_dialStep (cfg : Config) (v k : String → Bool) (tok : Option String)
    (st : Client) (m : Msg) : dialStep st (procClient cfg v k tok st m).1 := by
  unfold procClient
  dsimp only
  split_ifs with h1 h2
  · exact captchaBlock_dialStep v st m
  · exact nickSection_dialStep st m
  · refine dialStep_trans _ _ _ (nickSection_dialStep st m) ?_
    refine dialStep_trans _ _ _ (userSection_dialStep cfg _ m) ?_
    exact Or.inl ⟨procClientRest_up cfg k tok _ _ _, procClientRest_dials cfg k tok _ _ _⟩

theorem runClient_dials_aux (cfg : Config) (v k : String → Bool) (tok : Option String) :
    ∀ (msgs : List Msg) (s : Client), s.dials ≤ 1 → (s.upstreamStarted = false → s.dials = 0) →
      (runClient cfg v k tok s msgs).dials ≤ 1 ∧
      ((runClient cfg v k tok s msgs).upstreamStarted = false →
        (runClient cfg v k tok s msgs).dials = 0) := by
  intro msgs
  induction msgs with
  | nil => intro s h1 h2; exact ⟨h1, h2⟩
  | cons m rest ih =>
    intro s h1 h2
    have hrun : runClient cfg v k tok s (m :: rest) =
        runClient cfg v k tok (procClient cfg v k tok s m).1 rest := rfl
    rw [hrun]
    rcases procClient_dialStep cfg v k tok s m with ⟨hu, hd⟩ | ⟨hu, hus, hd⟩
    · refine ih _ (by rw [hd]; exact h1) ?_
      intro hf
      rw [hd]
      exact h2 (by rw [← hu]; exact hf)
    · refine ih _ ?_ ?_
      · rw [hd, h2 hu]
      · intro hf
        rw [hus] at hf
        exact absurd hf (by decide)

/-- C2: the connect-if-ready attempt initiates an upstream dial exactly
when `upstreamStarted` is false, the username and nick are non-empty, and
the session is verified or verification is not required; every processing
step either leaves the dial state untouched or initiates exactly one dial,
flipping `upstreamStarted` from false to true; hence across any sequence
of client lines (NICK, USER and CAPTCHA included) processed from a fresh
session, at most one upstream dial is ever initiated. -/
theorem c2_single_dial (cfg : Config) (v k : String → Bool) (tok : Option String) :
    (∀ s : Client,
      (s.upstreamStarted = false ∧ s.username ≠ "" ∧ s.nick ≠ "" ∧
          (s.requiresVerification = false ∨ s.verified = true) →
        maybeConnectUpstream s =
          { s with upstreamStarted := true, dials := s.dials + 1 }) ∧
      (¬(s.upstreamStarted = false ∧ s.username ≠ "" ∧ s.nick ≠ "" ∧
          (s.requiresVerification = false ∨ s.verified = true)) →
        maybeConnectUpstream s = s)) ∧
    (∀ (s : Client) (m : Msg), dialStep s (procClient cfg v k tok s m).1) ∧
    (∀ (rv : Bool) (msgs : List Msg),
      (runClient cfg v k tok (newClient rv) msgs).dials ≤ 1) := by
  refine ⟨?_, procClient_dialStep cfg v k tok, ?_⟩
  · intro s
    constructor
    · intro h
      rw [maybeConnectUpstream_eq, if_pos h]
    · intro h
      rw [maybeConnectUpstream_eq, if_neg h]
  · intro rv msgs
    exact (runClient_dials_aux cfg v k tok msgs (newClient rv)
      (Nat.zero_le 1) (fun _ => rfl)).1

theorem c2_single_dial_witness :
    maybeConnectUpstream c2st =
      { c2st with upstreamStarted := true, dials := c2st.dials + 1 } ∧
    (runClient {} (fun _ => true) (fun _ => true) none (newClient false) c2msgs).dials ≤ 1 :=
  ⟨((c2_single_dial {} (fun _ => true) (fun _ => true) none).1 c2st).1 (by decide),
   (c2_single_dial {} (fun _ => true) (fun _ => true) none).2.2 false c2msgs⟩

/-! ### C7: the message-tags CAP wrapping -/

theorem capReqFold_eq (caps : List String) (acc1 : List String) (r : String) :
    caps.foldl
      (fun (acc : List String × String) tok =>
        if strContains (asciiLower tok) "message-tags" = false then (acc.1 ++ [tok], acc.2)
        else (acc.1, tok))
      (acc1, r) =
    (acc1 ++ caps.filter (fun t => !strContains (asciiLower t) "message-tags"),
      caps.foldl
        (fun s t => if strContains (asciiLower t) "message-tags" = false then s else t) r) := by
  induction caps generalizing acc1 r with
  | nil => simp
  | cons c rest ih =>
    simp only [List.foldl_cons, List.filter_cons]
    by_cases hc : strContains (asciiLower c) "message-tags" = false
    · rw [if_pos hc, if_pos (by simp [hc]), if_pos hc, ih]
      simp
    · rw [if_neg hc, if_neg (by simp at hc; simp [hc]), if_neg hc, ih]

theorem capReqBlock_eq (st : Client) (m : Msg)
    (hhas : strContains (asciiLower (m.getParam 1 "")) "message-tags" = true) :
    capReqBlock st m =
      if keptCaps m = [] then
        ({ st with reqMTCap := rememberedCap st m },
          [Emit.dataRaw ("CAP * ACK :" ++ rememberedCap st m)], none)
      else
        ({ st with reqMTCap := rememberedCap st m }, [],
          some ({ m with params := m.params.set 1 (strJoin " " (keptCaps m)) }, false)) := by
  unfold capReqBlock
  dsimp only
  rw [if_pos hhas, capReqFold_eq]
  have hk : (strSplitCh ' ' (asciiLower (m.getParam 1 ""))).filter
      (fun t => !strContains (asciiLower t) "message-tags") = keptCaps m := rfl
  have hr : (strSplitCh ' ' (asciiLower (m.getParam 1 ""))).foldl
      (fun s t => if strContains (asciiLower t) "message-tags" = false then s else t)
      st.reqMTCap = rememberedCap st m := rfl
  rw [List.nil_append, hk, hr]
  by_cases h0 : keptCaps m = []
  · rw [if_pos (by rw [h0]; rfl), if_pos h0]
  · rw [if_neg (fun hl => h0 (List.length_eq_zero.mp hl)), if_neg h0]

theorem nickSection_notNick (st : Client) (m : Msg) (h : asciiUpper m.command ≠ "NICK") :
    nickSection st m = st := by
  unfold nickSection
  rw [if_neg (fun hh => h hh.1)]

theorem userSection_notUser (cfg : Config) (st : Client) (m : Msg)
    (h : asciiUpper m.command ≠ "USER") : userSection cfg st m = (st, m, true) := by
  unfold userSection
  rw [if_neg (fun hh => h hh.1)]

theorem command_ne_of_upper (m : Msg) (d c : String) (hm : asciiUpper m.command = c)
    (hne : asciiUpper d ≠ c) : m.command ≠ d := by
  intro h
  rw [h] at hm
  exact hne hm

theorem canContainClientTags_eq_false (m : Msg) (h1 : m.command ≠ "PRIVMSG")
    (h2 : m.command ≠ "NOTICE") (h3 : m.command ≠ "TAGMSG") :
    canContainClientTags m = false := by
  unfold canContainClientTags
  simp only [Bool.or_eq_false_iff, beq_eq_false_iff_ne]
  exact ⟨⟨h1, h2⟩, h3⟩

theorem tagSection_plain (tok : Option String) (st : Client) (m : Msg)
    (emits : List Emit) (raw : Bool)
    (h1 : m.command ≠ "TAGMSG") (h2 : canContainClientTags m = false)
    (h3 : asciiUpper m.command ≠ "EXTJWT") :
    tagSection tok st m emits raw = (st, emits, if raw then Fwd.raw else Fwd.msg m) := by
  unfold tagSection
  dsimp only
  have hng1 : ¬(st.featMsgTags = true ∧ m.command = "TAGMSG") := fun hh => h1 hh.2
  have hng2 : ¬(st.featMsgTags = true ∧ canContainClientTags m = true) := by
    intro hh
    rw [h2] at hh
    exact absurd hh.2 (by decide)
  rw [if_neg hng1, if_neg hng2]
  dsimp only
  rw [if_neg (fun hh => h3 hh.2)]
  simp

theorem procClient_cap_route (cfg : Config) (v k : String → Bool) (tok : Option String)
    (st : Client) (m : Msg)
    (hmt : st.featMsgTags = true) (hcmd : asciiUpper m.command = "CAP")
    (hreq : m.getParamU 0 "" = "REQ") :
    procClient cfg v k tok st m =
      match capReqBlock st m with
      | (st2, emits, none) => (st2, emits, Fwd.absorbed)
      | (st2, emits, some mr) => tagSection tok st2 mr.1 emits mr.2 := by
  have hcap : asciiUpper m.command ≠ "CAPTCHA" := by rw [hcmd]; decide
  have hnick : asciiUpper m.command ≠ "NICK" := by rw [hcmd]; decide
  have huser : asciiUpper m.command ≠ "USER" := by rw [hcmd]; decide
  have henc : asciiUpper m.command ≠ "ENCODING" := by rw [hcmd]; decide
  have hhost : asciiUpper m.command ≠ "HOST" := by rw [hcmd]; decide
  have hreq' : asciiUpper (m.getParam 0 "") = "REQ" := hreq
  unfold procClient
  rw [if_neg (fun h => hcap h.2)]
  dsimp only
  rw [nickSection_notNick st m hnick]
  rw [if_neg (fun h => huser h.1), userSection_notUser cfg st m huser]
  dsimp only
  unfold procClientRest
  rw [if_neg henc, if_neg (fun h => hhost h.1)]
  dsimp only
  unfold capSection
  dsimp only
  have hLSneg : ¬(asciiUpper m.command = "CAP" ∧ 0 < m.params.length ∧
      asciiUpper (m.getParam 0 "") = "LS") :=
    fun h => absurd (hreq'.symm.trans h.2.2) (by decide)
  rw [if_neg hLSneg, if_pos ⟨hmt, hcmd, hreq⟩]
  rcases hcb : capReqBlock st m with ⟨st2, emits, mo⟩
  cases mo <;> simp

/-- C7 counterexample: the CAP REQ wrapping is conditional on the
session's message-tags emulation being enabled (a prior client CAP LS),
and the remembered token is the lower-cased one.  A fresh session's solo
`CAP REQ :message-tags` is forwarded untouched — no synthesized ACK, no
absorption, no remembrance — and with the emulation on, a mixed-case
request is remembered lower-cased rather than exactly. -/
theorem c7_cap_req_counterexample :
    procClient {} (fun _ => true) (fun _ => true) none (newClient false)
        { command := "CAP", params := ["REQ", "message-tags"] } =
      (newClient false, [], Fwd.raw) ∧
    (procClient {} (fun _ => true) (fun _ => true) none { featMsgTags := true }
        { command := "CAP", params := ["REQ", "Message-Tags batch"] }).1.reqMTCap =
      "message-tags" :=
  ⟨rfl, rfl⟩

/-- C7 (amended): for a session whose message-tags emulation is enabled,
a client CAP REQ whose lower-cased capability list contains message-tags
is handled as follows: if no other capabilities survive the stripping the
gateway itself emits `CAP * ACK :<cap>` and absorbs the REQ; otherwise the
forwarded REQ carries only the surviving capabilities and the lower-cased
matching token is remembered in `reqMTCap`; and a later upstream CAP ACK
with at least three parameters not already mentioning MESSAGE-TAGS has
the remembered token appended to its capability parameter, clearing the
remembrance. -/
theorem c7_cap_message_tags (cfg : Config) (v k : String → Bool) (tok : Option String)
    (st : Client) (m : Msg)
    (hmt : st.featMsgTags = true)
    (hcmd : asciiUpper m.command = "CAP")
    (hreq : m.getParamU 0 "" = "REQ")
    (hhas : strContains (asciiLower (m.getParam 1 "")) "message-tags" = true) :
    (keptCaps m = [] →
      procClient cfg v k tok st m =
        ({ st with reqMTCap := rememberedCap st m },
          [Emit.dataRaw ("CAP * ACK :" ++ rememberedCap st m)], Fwd.absorbed)) ∧
    (keptCaps m ≠ [] →
      procClient cfg v k tok st m =
        ({ st with reqMTCap := rememberedCap st m }, [],
          Fwd.msg { m with params := m.params.set 1 (strJoin " " (keptCaps m)) })) ∧
    (∀ (st2 : Client) (m2 : Msg),
      st2.reqMTCap ≠ "" → asciiUpper m2.command = "CAP" → m2.getParamU 1 "" = "ACK" →
      strContains (m2.getParamU 2 "") "MESSAGE-TAGS" = false → 3 ≤ m2.params.length →
      upCapAckBlock st2 m2 =
        PanicOr.ok ({ st2 with reqMTCap := "" },
          { m2 with params := m2.params.set 2 (m2.getParam 2 "" ++ " " ++ st2.reqMTCap) },
          false)) := by
  have hroute := procClient_cap_route cfg v k tok st m hmt hcmd hreq
  have hcb := capReqBlock_eq st m hhas
  refine ⟨?_, ?_, ?_⟩
  · intro h0
    rw [if_pos h0] at hcb
    rw [hroute, hcb]
  · intro h0
    rw [if_neg h0] at hcb
    rw [hroute, hcb]
    dsimp only
    have htag : ({ m with params := m.params.set 1 (strJoin " " (keptCaps m)) } : Msg).command ≠
        "TAGMSG" := command_ne_of_upper m _ _ hcmd (by decide)
    have hpriv : ({ m with params := m.params.set 1 (strJoin " " (keptCaps m)) } : Msg).command ≠
        "PRIVMSG" := command_ne_of_upper m _ _ hcmd (by decide)
    have hnot : ({ m with params := m.params.set 1 (strJoin " " (keptCaps m)) } : Msg).command ≠
        "NOTICE" := command_ne_of_upper m _ _ hcmd (by decide)
    have hext : asciiUpper ({ m with params := m.params.set 1 (strJoin " " (keptCaps m)) } :
        Msg).command ≠ "EXTJWT" := by rw [show asciiUpper m.command = "CAP" from hcmd]; decide
    rw [tagSection_plain tok _ _ _ _ htag
      (canContainClientTags_eq_false _ hpriv hnot htag) hext]
    rfl
  · intro st2 m2 h1 h2 h3 h4 h5
    unfold upCapAckBlock
    rw [if_pos ⟨h1, h2, h3, h4⟩, if_neg (Nat.not_lt.mpr h5)]

theorem c7_cap_message_tags_witness :
    keptCaps c7msg ≠ [] ∧
    procClient {} (fun _ => true) (fun _ => true) none c7st c7msg =
      ({ c7st with reqMTCap := rememberedCap c7st c7msg }, [],
        Fwd.msg { c7msg with params := c7msg.params.set 1 (strJoin " " (keptCaps c7msg)) }) :=
  ⟨by decide,
    (c7_cap_message_tags {} (fun _ => true) (fun _ => true) none c7st c7msg
      rfl (by decide) (by decide) (by decide)).2.1 (by decide)⟩

/-! ### C10: EXTJWT token chunking -/

theorem extjwtLoopFuel_spec (fuel : Nat) (tokenM : Msg) :
    ∀ tok : List Char, tok.length ≤ MAX_EXTJWT_SIZE * fuel + MAX_EXTJWT_SIZE →
    extjwtLoopFuel fuel tokenM tok ≠ [] ∧
    (∀ mm ∈ (extjwtLoopFuel fuel tokenM tok).dropLast,
      ∃ chunk : List Char, chunk.length = MAX_EXTJWT_SIZE ∧
        mm = { tokenM with params := tokenM.params ++ ["*", String.mk chunk] }) ∧
    (∃ rest : List Char, rest.length ≤ MAX_EXTJWT_SIZE ∧
      (extjwtLoopFuel fuel tokenM tok).getLast? =
        some { tokenM with params := tokenM.params ++ [String.mk rest] }) ∧
    ((extjwtLoopFuel fuel tokenM tok).map
        (fun mm => (mm.params.getLastD "").data)).foldr (· ++ ·) [] = tok := by
  induction fuel with
  | zero =>
    intro tok hf
    simp only [MAX_EXTJWT_SIZE, Nat.mul_zero, Nat.zero_add] at hf
    refine ⟨by simp [extjwtLoopFuel], by simp [extjwtLoopFuel], ⟨tok, hf, ?_⟩, ?_⟩
    · simp [extjwtLoopFuel]
    · simp [extjwtLoopFuel, strMk_data]
  | succ fuel ih =>
    intro tok hf
    by_cases hlen : MAX_EXTJWT_SIZE < tok.length
    · have hrec := ih (tok.drop MAX_EXTJWT_SIZE)
        (by simp only [List.length_drop, MAX_EXTJWT_SIZE] at hf hlen ⊢; omega)
      obtain ⟨hne, hcont, ⟨rest, hrl, hlast⟩, hcat⟩ := hrec
      obtain ⟨x, xs, hxx⟩ := List.exists_cons_of_ne_nil hne
      have hstep : extjwtLoopFuel (fuel + 1) tokenM tok =
          { tokenM with params := tokenM.params ++
              ["*", String.mk (tok.take MAX_EXTJWT_SIZE)] } ::
            extjwtLoopFuel fuel tokenM (tok.drop MAX_EXTJWT_SIZE) := by
        rw [extjwtLoopFuel, if_pos hlen]
      refine ⟨by rw [hstep]; simp, ?_, ⟨rest, hrl, ?_⟩, ?_⟩
      · intro mm hmm
        rw [hstep, hxx, List.dropLast_cons₂] at hmm
        rcases List.mem_cons.mp hmm with h | h
        · exact ⟨tok.take MAX_EXTJWT_SIZE,
            by simp [List.length_take]; omega, h⟩
        · rw [← hxx] at h
          exact hcont mm h
      · rw [hstep, hxx, List.getLast?_cons_cons, ← hxx, hlast]
      · rw [hstep]
        simp only [List.map_cons, List.foldr_cons, hcat]
        simp [strMk_data]
    · refine ⟨?_, ?_, ⟨tok, by omega, ?_⟩, ?_⟩ <;>
        rw [extjwtLoopFuel, if_neg hlen]
      · simp
      · simp
      · simp
      · simp [strMk_data]

set_option maxRecDepth 20000 in
/-- C10 counterexample: for a channel-targeted EXTJWT the continuation
marker "*" is not the first post-command parameter — the first parameter
is the channel target; the marker sits directly before the chunk, after
the target and service placeholders. -/
theorem c10_extjwt_counterexample :
    (extjwtBlock (some c10tok) c10st { command := "EXTJWT", params := ["#c"] }).2.1 =
      [Emit.dataMsg { command := "EXTJWT", params := ["#c", "*", "*", c10chunk] },
       Emit.dataMsg { command := "EXTJWT", params := ["#c", "*", "a"] }] ∧
    ("#c" : String) ≠ "*" :=
  ⟨rfl, by decide⟩

/-- C10 (amended): a serialized signed token longer than 200 characters
is emitted as a sequence of EXTJWT messages: every message except the
last appends to the base parameters (target, then the "*" service
placeholder) a "*" continuation marker directly followed by one
200-character chunk; the final message appends just the remaining
characters; and the in-order concatenation of the carried chunks equals
the full token.  For a channel-targeted request the emitted messages are
exactly this sequence over base parameters [target, "*"]. -/
theorem c10_extjwt_chunking (tokenM : Msg) (tok : List Char) :
    (extjwtLoop tokenM tok ≠ []) ∧
    (∀ mm ∈ (extjwtLoop tokenM tok).dropLast,
      ∃ chunk : List Char, chunk.length = MAX_EXTJWT_SIZE ∧
        mm = { tokenM with params := tokenM.params ++ ["*", String.mk chunk] }) ∧
    (∃ rest : List Char, rest.length ≤ MAX_EXTJWT_SIZE ∧
      (extjwtLoop tokenM tok).getLast? =
        some { tokenM with params := tokenM.params ++ [String.mk rest] }) ∧
    (((extjwtLoop tokenM tok).map
        (fun mm => (mm.params.getLastD "").data)).foldr (· ++ ·) [] = tok) ∧
    (∀ (tokS : String) (st : Client) (m : Msg) (ch : StChan),
      getChannel st.channels (m.getParam 0 "") = some ch →
      m.getParam 0 "" ≠ "" → m.getParam 0 "" ≠ "*" →
      (m.getParam 1 "" = "" ∨ m.getParam 1 "" = "*") →
      extjwtBlock (some tokS) st m =
        (st, (extjwtLoop ⟨"EXTJWT", [m.getParam 0 "", "*"], st.svPfx, []⟩
          tokS.data).map Emit.dataMsg, Fwd.absorbed)) := by
  have hspec := extjwtLoopFuel_spec (tok.length + 1) tokenM tok
    (by simp only [MAX_EXTJWT_SIZE]; omega)
  obtain ⟨h1, h2, h3, h4⟩ := hspec
  refine ⟨h1, h2, h3, h4, ?_⟩
  intro tokS st m ch hch hne1 hne2 hsvc
  unfold extjwtBlock
  dsimp only
  rw [if_neg (by rintro (h | h); exact hne1 h; exact hne2 h)]
  rw [hch]
  dsimp only
  rw [if_pos hsvc]
  rfl

theorem c10_extjwt_chunking_witness :
    (((extjwtLoop { command := "EXTJWT", params := ["#c", "*"] } c10tok.data).map
        (fun mm => (mm.params.getLastD "").data)).foldr (· ++ ·) [] = c10tok.data) ∧
    extjwtBlock (some c10tok) c10st { command := "EXTJWT", params := ["#c"] } =
      (c10st, (extjwtLoop
          ⟨"EXTJWT", [({ command := "EXTJWT", params := ["#c"] } : Msg).getParam 0 "", "*"],
            c10st.svPfx, []⟩
          c10tok.data).map Emit.dataMsg, Fwd.absorbed) :=
  ⟨(c10_extjwt_chunking { command := "EXTJWT", params := ["#c", "*"] } c10tok.data).2.2.2.1,
   (c10_extjwt_chunking { command := "EXTJWT", params := ["#c", "*"] } c10tok.data).2.2.2.2
     c10tok c10st { command := "EXTJWT", params := ["#c"] } (newStateChannel "#c" 0)
     rfl (by decide) (by decide) (by decide)⟩

end Webirc
